import Mathlib

/-!
Verification development for the `next-wasm-web-ifc` browser front-end.

The repository's logic is a set of extraction / normalization functions that
reshape JSON-like records returned by the web-ifc WASM engine into
display-friendly structures.  This file gives a shallow embedding of those
functions and proves (or refutes) the specified properties about them.

Conventions of the embedding:
* JavaScript runtime values that flow through the normalizer are modelled by
  `JsVal`; a JS number is `Option ℚ` with `none` standing for a non-finite
  result (`NaN`), which only ever arises from coercing a non-numeric string.
* Records returned by the engine are modelled as structures whose optional
  fields are `Option`-typed (`none` = the field is absent / `undefined`).
* Functions that the source wraps in `try/catch` take their engine calls as
  `Except String` values; a caught error is the `.error` branch.
-/

namespace IfcWeb

/-- A JavaScript primitive value as it appears in engine records and in the
normalized output (`string | number | boolean | null`).  A number is
`num (some q)` for a finite value and `num none` for `NaN`. -/
inductive JsVal where
  | num (q : Option ℚ)
  | str (s : String)
  | bool (b : Bool)
  | null
deriving DecidableEq, Repr

/-- JavaScript truthiness of a primitive value (`NaN`, `0`, `""`, `false`,
`null` are falsy). -/
def jsTruthy : JsVal → Bool
  | .num none => false
  | .num (some q) => q != 0
  | .str s => s != ""
  | .bool b => b
  | .null => false

/-- Digits-only string to a natural number (used under guards that the string
is a nonempty digit run). -/
def digitsToNat (l : List Char) : Nat :=
  l.foldl (fun acc c => acc * 10 + (c.toNat - '0'.toNat)) 0

/-- JS `Number(s)` for a string: the empty / whitespace-only string is `0`, an
optionally signed decimal literal is its value, anything else is `NaN`
(`none`).  (Exponent and hex literal forms never occur in this code base's
data and are not modelled.) -/
def jsParseNum (s : String) : Option ℚ :=
  let l := s.data.dropWhile (· == ' ')
  let l := (l.reverse.dropWhile (· == ' ')).reverse
  if l.isEmpty then some 0 else
  let (sign, l) := match l with
    | '-' :: rest => ((-1 : ℚ), rest)
    | '+' :: rest => ((1 : ℚ), rest)
    | rest => ((1 : ℚ), rest)
  let intPart := l.takeWhile (·.isDigit)
  let rest := l.drop intPart.length
  match rest with
  | [] => if intPart.isEmpty then none else some (sign * digitsToNat intPart)
  | '.' :: frac =>
    if frac.all (·.isDigit) ∧ ¬(intPart.isEmpty ∧ frac.isEmpty) then
      some (sign * ((digitsToNat intPart : ℚ) +
        (digitsToNat frac : ℚ) / ((10 : ℚ) ^ frac.length)))
    else none
  | _ => none

/-- The JS `Number(v)` coercion on a primitive value. -/
def jsNumber : JsVal → Option ℚ
  | .num q => q
  | .str s => jsParseNum s
  | .bool b => some (if b then 1 else 0)
  | .null => some 0

/-- Decimal rendering of a rational (integer values render without a point;
used only for `String(v)` on numbers, which no engine record in the claims
exercises). -/
def ratRepr (q : ℚ) : String :=
  if q.den = 1 then toString q.num else toString q.num ++ "/" ++ toString q.den

/-- The JS `String(v)` coercion on a primitive value. -/
def jsToString : JsVal → String
  | .num none => "NaN"
  | .num (some q) => ratRepr q
  | .str s => s
  | .bool b => if b then "true" else "false"
  | .null => "null"

/-- Contiguous-sublist test on character lists. -/
def charsContain (s pat : List Char) : Bool :=
  match s with
  | [] => pat.isEmpty
  | _ :: rest => pat.isPrefixOf s || charsContain rest pat

/-- JS `String.prototype.includes`: substring containment. -/
def containsSub (s pat : String) : Bool :=
  charsContain s.data pat.data

/-- JS `String.prototype.toUpperCase` on the ASCII range (all IFC type
names are ASCII). -/
def asciiUpper (s : String) : String :=
  ⟨s.data.map fun c =>
    if 'a' ≤ c && c ≤ 'z' then Char.ofNat (c.toNat - 32) else c⟩

/-- JS `String.prototype.replace` with a plain-string pattern: replace the
first occurrence only. -/
def replaceFirst (s pat rep : String) : String :=
  ⟨go s.data⟩
where
  go : List Char → List Char
    | [] => if pat.data.isEmpty then rep.data else []
    | c :: rest =>
      if pat.data ≠ [] ∧ pat.data.isPrefixOf (c :: rest) then
        rep.data ++ (c :: rest).drop pat.data.length
      else
        c :: go rest

/-! ## Schema Loader (`SimpleIfcLoader.loadIfcSchema`, `getTypeName`)

The schema resource is a text module with lines of the form
`export const NAME = NUMBER;`.  `loadIfcSchema` extracts all matches of the
regex `/export const (\w+) = (\d+);/g` and fills a forward map
(`Record<string, number>`) and an inverse map (`Record<number, string>`),
later assignments overwriting earlier ones. -/

/-- The `\w` character class: letters, digits, underscore. -/
def isWordChar (c : Char) : Bool :=
  c.isAlpha || c.isDigit || c == '_'

/-- Try to match `export const (\w+) = (\d+);` at the head of `l`; on success
return the captured name, number, and the remaining characters after the
match. -/
def matchSchemaAt (l : List Char) : Option (String × Int × List Char) :=
  let lit := "export const ".data
  if lit.isPrefixOf l then
    let l₁ := l.drop lit.length
    let nameCs := l₁.takeWhile isWordChar
    if nameCs.isEmpty then none else
    let l₂ := l₁.drop nameCs.length
    let eqLit := " = ".data
    if eqLit.isPrefixOf l₂ then
      let l₃ := l₂.drop eqLit.length
      let digits := l₃.takeWhile (·.isDigit)
      if digits.isEmpty then none else
      let l₄ := l₃.drop digits.length
      match l₄ with
      | ';' :: rest => some (⟨nameCs⟩, (digitsToNat digits : Int), rest)
      | _ => none
    else none
  else none

/-- All matches of the schema regex over the text, scanned left to right
without overlap (the semantics of `matchAll` for this pattern).  The scan
advances by at least one character per step, so running it with the text's
length as fuel is exact. -/
def schemaMatchesAux : Nat → List Char → List (String × Int)
  | 0, _ => []
  | _, [] => []
  | fuel + 1, c :: rest =>
    match matchSchemaAt (c :: rest) with
    | some (n, v, after) => (n, v) :: schemaMatchesAux fuel after
    | none => schemaMatchesAux fuel rest

/-- The list of `(NAME, NUMBER)` pairs matched in a schema text, in scan
order. -/
def schemaMatches (text : String) : List (String × Int) :=
  schemaMatchesAux text.data.length text.data

/-- JS `Record` assignment `m[k] = v`: overwrite the binding if the key is
present, append it otherwise.  Lookup is `List.lookup` (first binding). -/
def recordInsert {κ ν : Type} [BEq κ] (m : List (κ × ν)) (k : κ) (v : ν) :
    List (κ × ν) :=
  match m with
  | [] => [(k, v)]
  | (k', v') :: rest =>
    if k' == k then (k, v) :: rest else (k', v') :: recordInsert rest k v

/-- The map-building loop of `loadIfcSchema`: for each matched `(name, value)`,
set `schemaMap[name] = value` and `inverseMap[value] = name`. -/
def buildSchemaMaps (pairs : List (String × Int)) :
    List (String × Int) × List (Int × String) :=
  pairs.foldl
    (fun (maps : List (String × Int) × List (Int × String)) p =>
      (recordInsert maps.1 p.1 p.2, recordInsert maps.2 p.2 p.1))
    ([], [])

/-- The forward map built by `loadIfcSchema` from a schema text. -/
def ifcSchemaOf (text : String) : List (String × Int) :=
  (buildSchemaMaps (schemaMatches text)).1

/-- The inverse map built by `loadIfcSchema` from a schema text. -/
def inverseIfcSchemaOf (text : String) : List (Int × String) :=
  (buildSchemaMaps (schemaMatches text)).2

/-- Lookup `getTypeName`: look the code up in the inverse schema map, falling back
to the placeholder `"Unknown Type (<code>)"`. -/
def getTypeName (inverseSchema : List (Int × String)) (typeCode : Int) :
    String :=
  match inverseSchema.lookup typeCode with
  | some name => name
  | none => "Unknown Type (" ++ toString typeCode ++ ")"

/-! ## Property extraction (`IfcBuiltElementsLoader`)

Raw engine records are loosely-typed field bags.  A "value holder" is an
object of shape `{ value?: primitive }`; `value := none` covers both an
object without a `value` member and one whose `value` is `undefined`
(both are skipped at every use site). -/

/-- A `{ value?: primitive }` holder object. -/
structure ValueHolder where
  value : Option JsVal
deriving DecidableEq, Repr

/-- The value of a holder field guarded by
`x && x.value !== undefined` (an object is always truthy). -/
def holderDefined : Option ValueHolder → Option JsVal
  | some ⟨some v⟩ => some v
  | _ => none

/-- JS `typeof` of a primitive value (`typeof null` is `"object"`). -/
def jsTypeof : JsVal → String
  | .num _ => "number"
  | .str _ => "string"
  | .bool _ => "boolean"
  | .null => "object"

/-- Normalized property (`PropertyValue` in the source:
`{ name, value, type }` — note there is no `unit` field). -/
structure PropertyValue where
  name : String
  value : JsVal
  type : String
deriving DecidableEq, Repr

/-- Normalized property set. -/
structure PropSet where
  name : String
  properties : List PropertyValue
deriving DecidableEq, Repr

/-- An item of an array-valued field of a raw property-set record.  All
holder fields the extraction code may read are optional; unknown extra
fields are never read and are not carried. -/
structure ArrayItem where
  name : Option ValueHolder
  nominalValue : Option ValueHolder
  volumeValue : Option ValueHolder
  areaValue : Option ValueHolder
  lengthValue : Option ValueHolder
  weightValue : Option ValueHolder
  countValue : Option ValueHolder
deriving DecidableEq, Repr

/-- An `ArrayItem` with every field absent. -/
def ArrayItem.empty : ArrayItem :=
  ⟨none, none, none, none, none, none, none⟩

/-- A field value of a raw property-set record: an array of items, a
non-null object (possibly holding a `value`), or a primitive (primitives
and `null` fall through every branch of the extraction loop). -/
inductive PSetField where
  | arr (items : List ArrayItem)
  | scalar (h : ValueHolder)
  | prim (v : JsVal)
deriving DecidableEq, Repr

/-- A raw property-set record: its enumerable fields in insertion order
(`Object.entries` order).  Keys are unique in a JS object; lookups below
take the first binding. -/
structure PSetRec where
  fields : List (String × PSetField)
deriving DecidableEq, Repr

/-- Match `HasProperties\[\d+\]\.NominalValue` at the head of the list,
returning the match length. -/
def matchNominalAt (l : List Char) : Option Nat :=
  let lit := "HasProperties[".data
  if lit.isPrefixOf l then
    let l₁ := l.drop lit.length
    let ds := l₁.takeWhile (·.isDigit)
    if ds.isEmpty then none else
    let l₂ := l₁.drop ds.length
    let lit₂ := "].NominalValue".data
    if lit₂.isPrefixOf l₂ then some (lit.length + ds.length + lit₂.length)
    else none
  else none

/-- JS `propName.replace(/HasProperties\[\d+\]\.NominalValue/, "Property")`:
replace the first regex match. -/
def replaceNominal (s : String) : String :=
  ⟨go s.data⟩
where
  go : List Char → List Char
    | [] => []
    | c :: rest =>
      match matchNominalAt (c :: rest) with
      | some n => "Property".data ++ (c :: rest).drop n
      | none => c :: go rest

/-- Function `extractPropertyValue` (IfcBuiltElementsLoader variant), reached only
for a non-null object with a defined `value` (the call site guards this),
so only that input shape is modelled.  In this variant the guard
`match && match[1]` on the regex *literal* is always false, so the
name-capture branch is dead and the replace branch runs. -/
def extractPropertyValue (holder : ValueHolder) (propName : String) :
    Option PropertyValue :=
  if containsSub propName "OwnerHistory" then none
  else
    let value := holder.value.getD .null
    let ty := jsTypeof value
    let name :=
      if containsSub propName "Quantities[" &&
          containsSub propName "VolumeValue" then "Volume"
      else if containsSub propName "Quantities[" &&
          containsSub propName "AreaValue" then "Area"
      else if containsSub propName "Quantities[" &&
          containsSub propName "LengthValue" then "Length"
      else if containsSub propName "HasProperties[0].NominalValue" then
        "IsExternal"
      else if containsSub propName "HasProperties[1].NominalValue" then
        "LoadBearing"
      else if containsSub propName "HasProperties[" &&
          containsSub propName "NominalValue" then
        replaceNominal propName
      else propName
    some { name := name, value := value, type := ty }

/-- The expression `item.Name?.value ? String(item.Name.value) : fallback` (JS truthiness
of the name value). -/
def quantityItemName (item : ArrayItem) (fallback : String) : String :=
  match item.name with
  | some ⟨some v⟩ => if jsTruthy v then jsToString v else fallback
  | _ => fallback

/-- The `Quantities` item branch of `extractPropertySet` (lines 231-257 of
`IfcBuiltElementsLoader.tsx`): `VolumeValue`, then `AreaValue`, then
`LengthValue`; the first holder with a defined value is emitted as a
`number`-typed `PropertyValue`; an item with none of the three emits
nothing.  `WeightValue` and `CountValue` are never inspected, and no unit
is attached. -/
def extractQuantityItem (item : ArrayItem) : Option PropertyValue :=
  match holderDefined item.volumeValue with
  | some v =>
    some { name := quantityItemName item "Volume",
           value := .num (jsNumber v), type := "number" }
  | none =>
    match holderDefined item.areaValue with
    | some v =>
      some { name := quantityItemName item "Area",
             value := .num (jsNumber v), type := "number" }
    | none =>
      match holderDefined item.lengthValue with
      | some v =>
        some { name := quantityItemName item "Length",
               value := .num (jsNumber v), type := "number" }
      | none => none

/-- The pre-pass over `propSet.HasProperties` building the
`propertyNames` record (`HasProperties[i] ↦ String(items[i].Name.value)`
for items with a defined name). -/
def propertyNamesOf (r : PSetRec) : List (String × String) :=
  match r.fields.lookup "HasProperties" with
  | some (.arr items) =>
    items.enum.filterMap (fun (i, item) =>
      match holderDefined item.name with
      | some v => some ("HasProperties[" ++ toString i ++ "]", jsToString v)
      | none => none)
  | _ => []

/-- The `HasProperties` item branch of `extractPropertySet`: emit the
`NominalValue.value` when defined, resolving the name by: the item's own
`Name.value`, else a truthy `propertyNames` entry, else positional
fallbacks `IsExternal` / `LoadBearing`, else `"Property <i+1>"`. -/
def extractHasPropItem (propertyNames : List (String × String)) (i : Nat)
    (item : ArrayItem) : Option PropertyValue :=
  match holderDefined item.nominalValue with
  | none => none
  | some nv =>
    let propName :=
      match holderDefined item.name with
      | some v => jsToString v
      | none =>
        match propertyNames.lookup ("HasProperties[" ++ toString i ++ "]") with
        | some s =>
          if s != "" then s
          else if i = 0 then "IsExternal"
          else if i = 1 then "LoadBearing"
          else "Property " ++ toString (i + 1)
        | none =>
          if i = 0 then "IsExternal"
          else if i = 1 then "LoadBearing"
          else "Property " ++ toString (i + 1)
    some { name := propName, value := nv, type := jsTypeof nv }

/-- The set name: `propSet.Name?.value !== undefined ? String(...) :
"Unnamed Set"`. -/
def psetName (r : PSetRec) : String :=
  match r.fields.lookup "Name" with
  | some (.scalar h) =>
    match h.value with
    | some v => jsToString v
    | none => "Unnamed Set"
  | _ => "Unnamed Set"

/-- Keys skipped by the extraction loop. -/
def psetDenyList : List String :=
  ["type", "Name", "GlobalId", "expressID", "OwnerHistory"]

/-- The contribution of one `(key, field)` entry of a raw property-set
record to the extracted property list. -/
def extractFieldProps (propertyNames : List (String × String))
    (key : String) (field : PSetField) : List PropertyValue :=
  if psetDenyList.contains key then []
  else
    match field with
    | .arr items =>
      if key = "Quantities" then items.filterMap extractQuantityItem
      else if key = "HasProperties" then
        items.enum.filterMap (fun (i, item) =>
          extractHasPropItem propertyNames i item)
      else []
    | .scalar h =>
      if containsSub key "OwnerHistory" then []
      else
        match h.value with
        | some _ =>
          match extractPropertyValue h key with
          | some pv => if pv.value ≠ .null then [pv] else []
          | none => []
        | none => []
    | .prim _ => []

/-- Function `extractPropertySet`: iterate all fields in order, collecting the
extracted properties. -/
def extractPropertySet (r : PSetRec) : PropSet :=
  let propertyNames := propertyNamesOf r
  { name := psetName r
    properties :=
      r.fields.flatMap (fun kv => extractFieldProps propertyNames kv.1 kv.2) }

/-! ## Model session and spatial walk (`IfcBuiltElementsLoader`) -/

/-- The fields of a `GetLine` record that this component reads. -/
structure ElementRec where
  name : Option ValueHolder
  globalId : Option ValueHolder
deriving DecidableEq, Repr

/-- The field `SpatialNode.type` is `string | number` in the source. -/
inductive NodeType where
  | str (s : String)
  | num (n : Int)
deriving DecidableEq, Repr

/-- A node of the engine-reported spatial structure. -/
inductive SpatialNode where
  | mk (expressID : Nat) (type : NodeType) (children : List SpatialNode)

def SpatialNode.expressID : SpatialNode → Nat
  | .mk i _ _ => i

def SpatialNode.type : SpatialNode → NodeType
  | .mk _ t _ => t

def SpatialNode.children : SpatialNode → List SpatialNode
  | .mk _ _ cs => cs

/-- An object read only through `x.Name` / `x.Name.value` (a referenced
material). -/
structure RawNamedRef where
  name : Option ValueHolder
deriving DecidableEq, Repr

/-- An entry of a raw `MaterialLayers` array. -/
structure RawLayer where
  layerThickness : Option ValueHolder
  material : Option RawNamedRef
deriving DecidableEq, Repr

/-- An entry of a raw `MaterialProfiles` array. -/
structure RawProfile where
  name : Option ValueHolder
  material : Option RawNamedRef
deriving DecidableEq, Repr

/-- An entry of a raw `MaterialConstituents` array. -/
structure RawConstituent where
  name : Option ValueHolder
  material : Option RawNamedRef
deriving DecidableEq, Repr

/-- A raw material record as returned by
`properties.getMaterialsProperties` — the fields `extractMaterialsInfo`
reads.  A `some []`-valued array field is present (and truthy in JS, so it
selects the corresponding composite branch) but empty. -/
structure RawMaterial where
  type : NodeType
  name : Option ValueHolder
  category : Option ValueHolder
  description : Option ValueHolder
  density : Option ValueHolder
  materialLayers : Option (List RawLayer)
  materialProfiles : Option (List RawProfile)
  materialConstituents : Option (List RawConstituent)
deriving DecidableEq, Repr

/-- Strict `===` comparison of a `string | number` type tag with a string
literal. -/
def NodeType.eqStr : NodeType → String → Bool
  | .str s, t => s == t
  | .num _, _ => false

/-- The engine calls this component makes, as pure functions; a thrown
error is the `.error` branch and is caught at the call sites shown in the
source.  The materials array may contain null entries (`!material` is
checked), hence `Option RawMaterial`. -/
structure Engine where
  getLine : Nat → Except String ElementRec
  getPropertySets : Nat → Except String (List PSetRec)
  getNameFromTypeCode : Int → String
  getMaterialsProperties : Nat → Except String (List (Option RawMaterial))

/-- The `PHYSICAL_ELEMENT_TYPES` allow-list. -/
def PHYSICAL_ELEMENT_TYPES : List String :=
  ["IFCWALL", "IFCSLAB", "IFCDOOR", "IFCWINDOW", "IFCCOLUMN", "IFCBEAM",
   "IFCROOF", "IFCSTAIR", "IFCRAILING", "IFCFURNISHINGELEMENT",
   "IFCCURTAINWALL", "IFCMEMBER", "IFCPLATE"]

/-- Predicate `isPhysicalElementByName`: an empty allow-list accepts everything;
otherwise the upper-cased type name must contain one of the entries. -/
def isPhysicalElementByName (typeName : String) : Bool :=
  if PHYSICAL_ELEMENT_TYPES.length = 0 then true
  else PHYSICAL_ELEMENT_TYPES.any (fun t => containsSub (asciiUpper typeName) t)

/-- Function `extractAllProperties`: fetch the property sets (a thrown fetch error
yields `[]`), extract each, and keep the non-empty ones. -/
def extractAllProperties (eng : Engine) (elementId : Nat) : List PropSet :=
  match eng.getPropertySets elementId with
  | .error _ => []
  | .ok sets =>
    (sets.map extractPropertySet).filter
      (fun ps => decide (0 < ps.properties.length))

/-- A normalized model element (`IfcModelElement` of
`IfcBuiltElementsLoader.tsx`). -/
structure ModelElement where
  id : Nat
  type : String
  typeName : String
  name : String
  globalId : Option String
  propertySets : List PropSet
  rawElement : Option ElementRec
deriving DecidableEq, Repr

/-- Function `processModelElement`: fetch the element record (a thrown error yields
`null`), resolve the type name, apply the physical-element filter unless
`includeAll`, and build the normalized element. -/
def processModelElement (eng : Engine) (showRaw : Bool) (node : SpatialNode)
    (includeAll : Bool) : Option ModelElement :=
  match eng.getLine node.expressID with
  | .error _ => none
  | .ok element =>
    let tn : String × Bool :=
      match node.type with
      | .str s => (s, isPhysicalElementByName s)
      | .num n =>
        let t := eng.getNameFromTypeCode n
        (t, isPhysicalElementByName t)
    if !tn.2 && !includeAll then none
    else
      let name :=
        match holderDefined element.name with
        | some v => jsToString v
        | none =>
          match holderDefined element.globalId with
          | some v => "[" ++ jsToString v ++ "]"
          | none => "Element #" ++ toString node.expressID
      let globalId :=
        match holderDefined element.globalId with
        | some v => some (jsToString v)
        | none => none
      some { id := node.expressID
             type := tn.1
             typeName := replaceFirst tn.1 "Ifc" ""
             name := name
             globalId := globalId
             propertySets := extractAllProperties eng node.expressID
             rawElement := if showRaw then some element else none }

/-- Function `extractModelElements`: process the node, then recurse into its
children in order, concatenating the results. -/
def extractModelElements (eng : Engine) (showRaw : Bool) (includeAll : Bool) :
    SpatialNode → List ModelElement
  | .mk i t cs =>
    (match processModelElement eng showRaw (.mk i t cs) includeAll with
     | some e => [e]
     | none => []) ++
    cs.attach.flatMap (fun c => extractModelElements eng showRaw includeAll c.1)
  decreasing_by
    have := List.sizeOf_lt_of_mem c.2
    simp only [SpatialNode.mk.sizeOf_spec]
    omega

/-- The pre-order listing of a spatial tree's nodes: each node before its
children, children in engine-reported order. -/
def preorderNodes : SpatialNode → List SpatialNode
  | .mk i t cs => .mk i t cs :: cs.attach.flatMap (fun c => preorderNodes c.1)
  decreasing_by
    have := List.sizeOf_lt_of_mem c.2
    simp only [SpatialNode.mk.sizeOf_spec]
    omega

/-- Total number of nodes of a spatial tree. -/
def nodeCount : SpatialNode → Nat
  | .mk _ _ cs => 1 + (cs.attach.map (fun c => nodeCount c.1)).sum
  decreasing_by
    have := List.sizeOf_lt_of_mem c.2
    simp only [SpatialNode.mk.sizeOf_spec]
    omega

/-! ## Material normalization (`IfcLoader.tsx`: `extractMaterialsInfo`,
`organizeStructuredMaterials`) -/

/-- Normalized material information (`MaterialInfo` of `IfcLoader.tsx`). -/
structure MaterialInfo where
  name : String
  category : Option String
  description : Option String
  properties : Option (List PropertyValue)
deriving DecidableEq, Repr

/-- A layer of a structured material. -/
structure MaterialLayer where
  index : Nat
  thickness : Option ℚ
  material : String
deriving DecidableEq, Repr

/-- Structured material information (`StructuredMaterialInfo`). -/
structure StructuredMaterialInfo where
  name : String
  type : String
  layers : Option (List MaterialLayer)
  properties : Option (List PropertyValue)
deriving DecidableEq, Repr

/-- The `x.Name.value` of a referenced material, defaulting to `"Unknown"`. -/
def refName (ref : RawNamedRef) : String :=
  match holderDefined ref.name with
  | some v => jsToString v
  | none => "Unknown"

/-- Contribution of one entry of a `MaterialLayers` array: the synthetic
`Layer <i+1> Thickness` / `Layer <i+1> Material` properties, and the
referenced layer material pushed as its own `MaterialInfo` (category
`"Layer Material"`). -/
def layerContrib (parentName : String) (i : Nat) (layer : RawLayer) :
    List PropertyValue × List MaterialInfo :=
  let thicknessProps :=
    match holderDefined layer.layerThickness with
    | some v =>
      [{ name := "Layer " ++ toString (i + 1) ++ " Thickness",
         value := .num (jsNumber v), type := "number" : PropertyValue }]
    | none => []
  match layer.material with
  | some lm =>
    let layerMaterialName := refName lm
    (thicknessProps ++
       [{ name := "Layer " ++ toString (i + 1) ++ " Material",
          value := .str layerMaterialName, type := "string" }],
     [{ name := layerMaterialName, category := some "Layer Material",
        description :=
          some ("Layer " ++ toString (i + 1) ++ " in " ++ parentName),
        properties := some [] }])
  | none => (thicknessProps, [])

/-- Contribution of one entry of a `MaterialProfiles` array. -/
def profileContrib (parentName : String) (i : Nat) (profile : RawProfile) :
    List PropertyValue × List MaterialInfo :=
  let profileName :=
    match holderDefined profile.name with
    | some v => jsToString v
    | none => "Profile " ++ toString (i + 1)
  let nameProp : PropertyValue :=
    { name := "Profile " ++ toString (i + 1) ++ " Name",
      value := .str profileName, type := "string" }
  match profile.material with
  | some pm =>
    let profileMaterialName := refName pm
    ([nameProp,
      { name := "Profile " ++ toString (i + 1) ++ " Material",
        value := .str profileMaterialName, type := "string" }],
     [{ name := profileMaterialName, category := some "Profile Material",
        description :=
          some ("Profile " ++ toString (i + 1) ++ " in " ++ parentName),
        properties := some [] }])
  | none => ([nameProp], [])

/-- Contribution of one entry of a `MaterialConstituents` array. -/
def constituentContrib (parentName : String) (i : Nat)
    (constituent : RawConstituent) :
    List PropertyValue × List MaterialInfo :=
  let constituentName :=
    match holderDefined constituent.name with
    | some v => jsToString v
    | none => "Constituent " ++ toString (i + 1)
  let nameProp : PropertyValue :=
    { name := "Constituent " ++ toString (i + 1) ++ " Name",
      value := .str constituentName, type := "string" }
  match constituent.material with
  | some cm =>
    let constituentMaterialName := refName cm
    ([nameProp,
      { name := "Constituent " ++ toString (i + 1) ++ " Material",
        value := .str constituentMaterialName, type := "string" }],
     [{ name := constituentMaterialName,
        category := some "Constituent Material",
        description :=
          some ("Constituent " ++ toString (i + 1) ++ " in " ++ parentName),
        properties := some [] }])
  | none => ([nameProp], [])

/-- Concatenate the per-item `(properties, side materials)` contributions
of a composite material's nested array. -/
def concatContribs (contribs : List (List PropertyValue × List MaterialInfo)) :
    List PropertyValue × List MaterialInfo :=
  (contribs.flatMap Prod.fst, contribs.flatMap Prod.snd)

/-- One raw material's output in `extractMaterialsInfo`: the side
materials pushed while walking a composite's nested array, followed by
the material's own entry (whose `properties` is set only when
non-empty). -/
def processRawMaterial (m : RawMaterial) : List MaterialInfo :=
  let name :=
    match holderDefined m.name with
    | some v => jsToString v
    | none => "Unnamed Material"
  let category :=
    match holderDefined m.category with
    | some v => some (jsToString v)
    | none => none
  let description :=
    match holderDefined m.description with
    | some v => some (jsToString v)
    | none => none
  let densityProps : List PropertyValue :=
    match holderDefined m.density with
    | some v => [{ name := "Density", value := .num (jsNumber v),
                   type := "number" }]
    | none => []
  let branch : List PropertyValue × List MaterialInfo :=
    if m.type.eqStr "IFCMATERIAL" then ([], [])
    else if m.type.eqStr "IFCMATERIALLAYERSET" || m.materialLayers.isSome then
      concatContribs
        ((m.materialLayers.getD []).enum.map fun p =>
          layerContrib name p.1 p.2)
    else if m.type.eqStr "IFCMATERIALPROFILESET" ||
        m.materialProfiles.isSome then
      concatContribs
        ((m.materialProfiles.getD []).enum.map fun p =>
          profileContrib name p.1 p.2)
    else if m.type.eqStr "IFCMATERIALCONSTITUENTSET" ||
        m.materialConstituents.isSome then
      concatContribs
        ((m.materialConstituents.getD []).enum.map fun p =>
          constituentContrib name p.1 p.2)
    else ([], [])
  let properties := densityProps ++ branch.1
  branch.2 ++
    [{ name := name, category := category, description := description,
       properties :=
         if 0 < properties.length then some properties else none }]

/-- Function `extractMaterialsInfo`: fetch the raw materials for an element (a
thrown fetch error yields `[]`); skip null entries; process each raw
material in order. -/
def extractMaterialsInfo (eng : Engine) (elementId : Nat) :
    List MaterialInfo :=
  match eng.getMaterialsProperties elementId with
  | .error _ => []
  | .ok ms =>
    ms.flatMap fun m? =>
      match m? with
      | none => []
      | some m => processRawMaterial m

/-- Does a material's property list contain a property whose name contains
both `"Layer"` and `"Thickness"`?  (The layer-set detection filter; a
material with absent `properties` is not matched.) -/
def hasLayerThicknessProp (m : MaterialInfo) : Bool :=
  match m.properties with
  | some ps =>
    ps.any fun p => containsSub p.name "Layer" && containsSub p.name "Thickness"
  | none => false

/-- Detection filter for `"Profile"`/`"Name"` (profile sets) or
`"Constituent"`/`"Name"` (constituent sets). -/
def hasNamePropWith (word : String) (m : MaterialInfo) : Bool :=
  match m.properties with
  | some ps =>
    ps.any fun p => containsSub p.name word && containsSub p.name "Name"
  | none => false

/-- The index-bounded layer scan of `organizeStructuredMaterials`: for
`i = 1..20`, pair the `Layer <i> Thickness` and `Layer <i> Material`
properties when both are present. -/
def layerScan (ps : List PropertyValue) : List MaterialLayer :=
  (List.range 20).filterMap fun j =>
    let i := j + 1
    match ps.find? (fun p => p.name == "Layer " ++ toString i ++ " Thickness"),
        ps.find? (fun p => p.name == "Layer " ++ toString i ++ " Material") with
    | some tp, some mp =>
      some { index := i, thickness := jsNumber tp.value,
             material := jsToString mp.value }
    | _, _ => none

/-- Function `organizeStructuredMaterials`: regroup flat `MaterialInfo` entries
into typed structures; then add the remaining materials as `Simple`
entries, excluding names already covered and the synthesized layer /
profile / constituent materials (by category). -/
def organizeStructuredMaterials (materials : List MaterialInfo) :
    List StructuredMaterialInfo :=
  let layerResults :=
    (materials.filter hasLayerThicknessProp).filterMap fun m =>
      match m.properties with
      | none => none
      | some ps =>
        let layers := layerScan ps
        if 0 < layers.length then
          some { name := m.name, type := "LayerSet", layers := some layers,
                 properties :=
                   some (ps.filter fun p => !containsSub p.name "Layer") }
        else none
  let profileResults :=
    (materials.filter (hasNamePropWith "Profile")).filterMap fun m =>
      match m.properties with
      | none => none
      | some ps =>
        some { name := m.name, type := "ProfileSet", layers := none,
               properties := some ps }
  let constituentResults :=
    (materials.filter (hasNamePropWith "Constituent")).filterMap fun m =>
      match m.properties with
      | none => none
      | some ps =>
        some { name := m.name, type := "ConstituentSet", layers := none,
               properties := some ps }
  let result := layerResults ++ profileResults ++ constituentResults
  let processedMaterialNames :=
    result.flatMap (fun r => (r.layers.getD []).map (·.material)) ++
      result.map (·.name)
  let simples :=
    materials.filterMap fun m =>
      if !processedMaterialNames.contains m.name &&
          m.category != some "Layer Material" &&
          m.category != some "Profile Material" &&
          m.category != some "Constituent Material" then
        some { name := m.name, type := "Simple", layers := none,
               properties := m.properties : StructuredMaterialInfo }
      else none
  result ++ simples

/-! ## Flat entity-listing variant (`SimpleIfcLoader.processFile`)

This component reads quantity value holders *directly*
(`qProp.LengthValue !== undefined`, `Number(qProp.LengthValue)`), not
through `.value`. -/

/-- JS truthiness of a `string | number` type tag (`if (!qProp.type)`). -/
def NodeType.truthy : NodeType → Bool
  | .str s => s != ""
  | .num n => n != 0

/-- A normalized quantity (`Quantity` in `SimpleIfcLoader.tsx`) — this
shape does carry a `unit`. -/
structure SQuantity where
  name : String
  value : JsVal
  unit : Option String
  type : String
deriving DecidableEq, Repr

/-- A normalized quantity set. -/
structure QuantitySet where
  name : String
  quantities : List SQuantity
deriving DecidableEq, Repr

/-- An item of a raw `Quantities` array in this component: the type tag
and the five value-holder fields, read directly. -/
structure SQuantItem where
  type : Option NodeType
  name : Option ValueHolder
  lengthValue : Option JsVal
  areaValue : Option JsVal
  volumeValue : Option JsVal
  weightValue : Option JsVal
  countValue : Option JsVal
deriving DecidableEq, Repr

/-- An `SQuantItem` with every field absent. -/
def SQuantItem.empty : SQuantItem :=
  ⟨none, none, none, none, none, none, none⟩

/-- The test `qProp.Name && typeof qProp.Name === "object" && qProp.Name.value !==
undefined ? String(qProp.Name.value) : "Unknown"`. -/
def simpleQuantityName (q : SQuantItem) : String :=
  match holderDefined q.name with
  | some v => jsToString v
  | none => "Unknown"

/-- The quantity-item loop body (`SimpleIfcLoader.tsx` lines 377-454): a
falsy or non-`IFCQUANTITY` type is skipped; then the first present of
`LengthValue`, `AreaValue`, `VolumeValue`, `WeightValue`, `CountValue`
determines the value and the unit `m` / `m²` / `m³` / `kg` / `count`;
an item with none of the five is still pushed, with value `"Unknown"`
and no unit. -/
def extractSimpleQuantity (inverseSchema : List (Int × String))
    (q : SQuantItem) : Option SQuantity :=
  match q.type with
  | none => none
  | some t =>
    if !t.truthy then none
    else
      let tyName? : Option String :=
        match t with
        | .num n =>
          let tn := getTypeName inverseSchema n
          if containsSub tn "IFCQUANTITY" then some tn else none
        | .str s => if containsSub s "IFCQUANTITY" then some s else none
      match tyName? with
      | none => none
      | some tyName =>
        let vu : JsVal × Option String :=
          match q.lengthValue with
          | some v => (.num (jsNumber v), some "m")
          | none =>
            match q.areaValue with
            | some v => (.num (jsNumber v), some "m²")
            | none =>
              match q.volumeValue with
              | some v => (.num (jsNumber v), some "m³")
              | none =>
                match q.weightValue with
                | some v => (.num (jsNumber v), some "kg")
                | none =>
                  match q.countValue with
                  | some v => (.num (jsNumber v), some "count")
                  | none => (.str "Unknown", none)
        some { name := simpleQuantityName q, value := vu.1, unit := vu.2,
               type := tyName }

/-- A raw property-set record as this component reads it: the type tag,
the `Name` holder, and the `Quantities` array (`none` also covers a
non-array `Quantities`, which is only logged). -/
structure SPsetRec where
  type : Option NodeType
  name : Option ValueHolder
  quantities : Option (List SQuantItem)
deriving DecidableEq, Repr

/-- The per-property-set loop: keep only `IFCELEMENTQUANTITY` sets (by
string tag or via the schema for a numeric tag), extract their
quantities, and push a `QuantitySet` when at least one quantity was
extracted. -/
def extractQuantitySets (inverseSchema : List (Int × String))
    (psets : List SPsetRec) : List QuantitySet :=
  psets.filterMap fun pset =>
    let isEQ :=
      match pset.type with
      | some (.str s) => s == "IFCELEMENTQUANTITY"
      | some (.num n) => getTypeName inverseSchema n == "IFCELEMENTQUANTITY"
      | none => false
    if !isEQ then none
    else
      let quantities :=
        (pset.quantities.getD []).filterMap (extractSimpleQuantity inverseSchema)
      if 0 < quantities.length then
        some { name :=
                 match holderDefined pset.name with
                 | some v => jsToString v
                 | none => "Unknown Quantity Set"
               quantities := quantities }
      else none

/-- The fields of a `GetLine` record this component reads.  `type` is
checked against `undefined`/`null` (not truthiness), so `none` means
absent. -/
structure SElementRec where
  type : Option NodeType
  name : Option ValueHolder
  globalId : Option ValueHolder
deriving DecidableEq, Repr

/-- A raw material / type-property record: only `Name` and `Description`
are read; the whole record is kept as `properties`. -/
structure SNamedRec where
  name : Option ValueHolder
  description : Option ValueHolder
deriving DecidableEq, Repr

/-- Normalized material info of this component. -/
structure SMaterialInfo where
  name : String
  description : Option String
  properties : SNamedRec
deriving DecidableEq, Repr

/-- A parsed element of this component (`ParsedElement`). -/
structure ParsedElement where
  expressID : Nat
  type : NodeType
  typeName : String
  name : String
  properties : SElementRec
  quantities : Option (List QuantitySet)
  materials : Option (List SMaterialInfo)
  typeProperties : Option (List SMaterialInfo)
deriving DecidableEq, Repr

/-- This component's engine surface. -/
structure SEngine where
  getLine : Nat → Except String SElementRec
  getPropertySets : Nat → Except String (List SPsetRec)
  getMaterialsProperties : Nat → Except String (List SNamedRec)
  getTypeProperties : Nat → Except String (List SNamedRec)

/-- Mapping of one raw material / type-property record
(`name` defaulting per the source, `description` optional, the raw record
kept). -/
def mapNamedRec (fallback : String) (m : SNamedRec) : SMaterialInfo :=
  { name :=
      match holderDefined m.name with
      | some v => jsToString v
      | none => fallback
    description :=
      match holderDefined m.description with
      | some v => some (jsToString v)
      | none => none
    properties := m }

/-- The loop body of `SimpleIfcLoader.processFile` for one express id:
skip the element when `GetLine` throws (the outer `catch`) or when the
record has no type; otherwise build the `ParsedElement`, with the
quantity / material / type-property slices each degrading to an unset
field on their own caught errors or when empty. -/
def processOneEntity (eng : SEngine) (inverseSchema : List (Int × String))
    (expressID : Nat) : Option ParsedElement :=
  match eng.getLine expressID with
  | .error _ => none
  | .ok props =>
    match props.type with
    | none => none
    | some t =>
      let typeName :=
        match t with
        | .num n => getTypeName inverseSchema n
        | .str s => s
      let name :=
        match holderDefined props.name with
        | some v => jsToString v
        | none =>
          match holderDefined props.globalId with
          | some v => jsToString v
          | none => "Element #" ++ toString expressID
      let quantitySets :=
        match eng.getPropertySets expressID with
        | .error _ => []
        | .ok psets => extractQuantitySets inverseSchema psets
      let materialInfos :=
        match eng.getMaterialsProperties expressID with
        | .error _ => []
        | .ok ms => ms.map (mapNamedRec "Unknown Material")
      let typePropInfos :=
        match eng.getTypeProperties expressID with
        | .error _ => []
        | .ok ts => ts.map (mapNamedRec "Unknown Type")
      some { expressID := expressID, type := t, typeName := typeName,
             name := name, properties := props
             quantities :=
               if 0 < quantitySets.length then some quantitySets else none
             materials :=
               if 0 < materialInfos.length then some materialInfos else none
             typeProperties :=
               if 0 < typePropInfos.length then some typePropInfos else none }

/-- The entity loop of `processFile` (lines 260-271 and 270-611): only the
first `min(T, 100)` entity ids of the engine's listing are visited; each
visited id contributes at most one parsed element. -/
def processEntities (eng : SEngine) (inverseSchema : List (Int × String))
    (ids : List Nat) : List ParsedElement :=
  let elementsToShow := min ids.length 100
  (List.range elementsToShow).filterMap fun i =>
    (ids[i]?).bind (processOneEntity eng inverseSchema)

/-! ## JSON export (`IfcLoader.tsx` `handleDownloadElements`)

`handleDownloadElements` maps each element to an export record with the
fields `id, type, typeName, name, globalId, propertySets, materials,
structuredMaterials` (dropping `rawElement`, which this component always
leaves `undefined`) and runs `JSON.stringify` on the list.

The text layer is modelled at the level of the JSON value tree: parsing
the produced text yields exactly the tree `JSON.stringify` serialized
(JSON text round-trips numbers, strings, arrays and objects exactly), so
"serialize, then parse back" is `jsonToTree ∘ stringify` below.  The JS
runtime value tree of the original records is `JsTree`, in which `NaN` is
its own leaf; a field holding `undefined` and an absent field are
identified (reading either gives `undefined`). -/

/-- The element records of `IfcLoader.tsx` (`IfcModelElement` without
`rawElement`, which this component always sets to `undefined`). -/
structure ModelElementL where
  id : Nat
  type : String
  typeName : String
  name : String
  globalId : Option String
  propertySets : List PropSet
  materials : List MaterialInfo
  structuredMaterials : List StructuredMaterialInfo
deriving DecidableEq, Repr

/-- A JSON value tree (what `JSON.parse` of the exported text denotes). -/
inductive Json where
  | null
  | bool (b : Bool)
  | num (q : ℚ)
  | str (s : String)
  | arr (xs : List Json)
  | obj (kvs : List (String × Json))

/-- A JS runtime value tree; unlike `Json` it can hold `NaN`. -/
inductive JsTree where
  | null
  | nan
  | bool (b : Bool)
  | num (q : ℚ)
  | str (s : String)
  | arr (xs : List JsTree)
  | obj (kvs : List (String × JsTree))

/-- The parsed JSON tree as a runtime value. -/
def jsonToTree : Json → JsTree
  | .null => .null
  | .bool b => .bool b
  | .num q => .num q
  | .str s => .str s
  | .arr xs => .arr (xs.attach.map fun x => jsonToTree x.1)
  | .obj kvs => .obj (kvs.attach.map fun kv => (kv.1.1, jsonToTree kv.1.2))
  decreasing_by
    · have := List.sizeOf_lt_of_mem x.2
      simp only [Json.arr.sizeOf_spec]
      omega
    · have h := List.sizeOf_lt_of_mem kv.2
      have : sizeOf kv.1.2 < sizeOf kv.1 := by
        rcases kv.1 with ⟨a, b⟩
        simp only [Prod.mk.sizeOf_spec]
        omega
      simp only [Json.obj.sizeOf_spec]
      omega

/-- Serialization `JSON.stringify` of a primitive: `NaN` serializes as `null`. -/
def stringifyJsVal : JsVal → Json
  | .num none => .null
  | .num (some q) => .num q
  | .str s => .str s
  | .bool b => .bool b
  | .null => .null

/-- The runtime value of a primitive: `NaN` stays `NaN`. -/
def treeOfJsVal : JsVal → JsTree
  | .num none => .nan
  | .num (some q) => .num q
  | .str s => .str s
  | .bool b => .bool b
  | .null => .null

/-- Optional field: present when `some`, omitted when
`undefined` (per `JSON.stringify`; the runtime side identifies the two,
see the section comment). -/
def optField {α : Type} (k : String) (v : Option α) (f : α → Json) :
    List (String × Json) :=
  match v with
  | some x => [(k, f x)]
  | none => []

def optFieldT {α : Type} (k : String) (v : Option α) (f : α → JsTree) :
    List (String × JsTree) :=
  match v with
  | some x => [(k, f x)]
  | none => []

def stringifyPropertyValue (p : PropertyValue) : Json :=
  .obj [("name", .str p.name), ("value", stringifyJsVal p.value),
        ("type", .str p.type)]

def treeOfPropertyValue (p : PropertyValue) : JsTree :=
  .obj [("name", .str p.name), ("value", treeOfJsVal p.value),
        ("type", .str p.type)]

def stringifyPropSet (ps : PropSet) : Json :=
  .obj [("name", .str ps.name),
        ("properties", .arr (ps.properties.map stringifyPropertyValue))]

def treeOfPropSet (ps : PropSet) : JsTree :=
  .obj [("name", .str ps.name),
        ("properties", .arr (ps.properties.map treeOfPropertyValue))]

def stringifyMaterialInfo (m : MaterialInfo) : Json :=
  .obj ([("name", Json.str m.name)] ++
    optField "category" m.category .str ++
    optField "description" m.description .str ++
    optField "properties" m.properties
      (fun ps => .arr (ps.map stringifyPropertyValue)))

def treeOfMaterialInfo (m : MaterialInfo) : JsTree :=
  .obj ([("name", JsTree.str m.name)] ++
    optFieldT "category" m.category .str ++
    optFieldT "description" m.description .str ++
    optFieldT "properties" m.properties
      (fun ps => .arr (ps.map treeOfPropertyValue)))

def stringifyMaterialLayer (l : MaterialLayer) : Json :=
  .obj [("index", .num l.index), ("thickness",
          match l.thickness with
          | some q => .num q
          | none => .null),
        ("material", .str l.material)]

def treeOfMaterialLayer (l : MaterialLayer) : JsTree :=
  .obj [("index", .num l.index), ("thickness",
          match l.thickness with
          | some q => .num q
          | none => .nan),
        ("material", .str l.material)]

def stringifyStructured (s : StructuredMaterialInfo) : Json :=
  .obj ([("name", Json.str s.name), ("type", Json.str s.type)] ++
    optField "layers" s.layers
      (fun ls => .arr (ls.map stringifyMaterialLayer)) ++
    optField "properties" s.properties
      (fun ps => .arr (ps.map stringifyPropertyValue)))

def treeOfStructured (s : StructuredMaterialInfo) : JsTree :=
  .obj ([("name", JsTree.str s.name), ("type", JsTree.str s.type)] ++
    optFieldT "layers" s.layers
      (fun ls => .arr (ls.map treeOfMaterialLayer)) ++
    optFieldT "properties" s.properties
      (fun ps => .arr (ps.map treeOfPropertyValue)))

/-- Serialization `JSON.stringify` of one export record (the mapped element of
`handleDownloadElements`). -/
def stringifyElement (e : ModelElementL) : Json :=
  .obj ([("id", Json.num e.id), ("type", Json.str e.type),
         ("typeName", Json.str e.typeName), ("name", Json.str e.name)] ++
    optField "globalId" e.globalId .str ++
    [("propertySets", .arr (e.propertySets.map stringifyPropSet)),
     ("materials", .arr (e.materials.map stringifyMaterialInfo)),
     ("structuredMaterials",
       .arr (e.structuredMaterials.map stringifyStructured))])

/-- The runtime value tree of one export record. -/
def treeOfElement (e : ModelElementL) : JsTree :=
  .obj ([("id", JsTree.num e.id), ("type", JsTree.str e.type),
         ("typeName", JsTree.str e.typeName), ("name", JsTree.str e.name)] ++
    optFieldT "globalId" e.globalId .str ++
    [("propertySets", .arr (e.propertySets.map treeOfPropSet)),
     ("materials", .arr (e.materials.map treeOfMaterialInfo)),
     ("structuredMaterials",
       .arr (e.structuredMaterials.map treeOfStructured))])

/-- The serialized export of the element list. -/
def stringifyExport (es : List ModelElementL) : Json :=
  .arr (es.map stringifyElement)

/-- The runtime value tree of the element list. -/
def treeOfExport (es : List ModelElementL) : JsTree :=
  .arr (es.map treeOfElement)

/-- Is a primitive a finite value (not `NaN`)? -/
def jsValFinite : JsVal → Bool
  | .num none => false
  | _ => true

def propertyValueFinite (p : PropertyValue) : Bool := jsValFinite p.value

def propSetFinite (ps : PropSet) : Bool :=
  ps.properties.all propertyValueFinite

def materialInfoFinite (m : MaterialInfo) : Bool :=
  (m.properties.getD []).all propertyValueFinite

def structuredFinite (s : StructuredMaterialInfo) : Bool :=
  ((s.layers.getD []).all fun l => l.thickness.isSome) &&
    (s.properties.getD []).all propertyValueFinite

/-- No `NaN` anywhere in an element's values. -/
def elementFinite (e : ModelElementL) : Bool :=
  e.propertySets.all propSetFinite && e.materials.all materialInfoFinite &&
    e.structuredMaterials.all structuredFinite

/-! ## Concrete inputs used by the theorems below -/

/-- A `Quantities` item carrying only `WeightValue.value = 5`. -/
def weightOnlyItem : ArrayItem :=
  { ArrayItem.empty with weightValue := some ⟨some (.num (some 5))⟩ }

/-- A `Quantities` item carrying both `LengthValue.value = 3` and
`VolumeValue.value = 2`. -/
def lengthAndVolumeItem : ArrayItem :=
  { ArrayItem.empty with
      lengthValue := some ⟨some (.num (some 3))⟩
      volumeValue := some ⟨some (.num (some 2))⟩ }

/-- A quantity item of the flat-listing variant with none of the five
value-holder fields, typed `IFCQUANTITYAREA`. -/
def bareQuantItem : SQuantItem :=
  { SQuantItem.empty with type := some (.str "IFCQUANTITYAREA") }

/-- A `Quantities` item with `AreaValue.value = 12.5` and a present name. -/
def areaItem : ArrayItem :=
  { ArrayItem.empty with
      name := some ⟨some (.str "GrossArea")⟩
      areaValue := some ⟨some (.num (some (mkRat 25 2)))⟩ }

/-- An `IFCQUANTITYLENGTH`-typed item of the flat-listing variant with
`LengthValue = 3`. -/
def lengthQuantItem : SQuantItem :=
  { SQuantItem.empty with
      type := some (.str "IFCQUANTITYLENGTH")
      lengthValue := some (.num (some 3)) }

/-- Schema text whose matched entries repeat the name `A` with two
different codes. -/
def dupSchemaText : String :=
  "export const A = 1;export const A = 2;"

/-- The spatial tree of the end-to-end scenario: one root of type
`IFCPROJECT` with an `IFCWALL` child and an `IFCSPACE` child. -/
def scenarioTree : SpatialNode :=
  .mk 1 (.str "IFCPROJECT")
    [.mk 2 (.str "IFCWALL") [], .mk 3 (.str "IFCSPACE") []]

/-- The engine of the end-to-end scenario: every element resolves with a
name `Elem<id>`, no property sets, no materials. -/
def scenarioEngine : Engine where
  getLine := fun i => .ok ⟨some ⟨some (.str ("Elem" ++ toString i))⟩, none⟩
  getPropertySets := fun _ => .ok []
  getNameFromTypeCode := fun _ => "IFCUNKNOWN"
  getMaterialsProperties := fun _ => .ok []

/-- The element the scenario walk produces for the root. -/
def scenarioRootElem : ModelElement :=
  ⟨1, "IFCPROJECT", "IFCPROJECT", "Elem1", none, [], none⟩

/-- The element the scenario walk produces for the wall child. -/
def scenarioWallElem : ModelElement :=
  ⟨2, "IFCWALL", "IFCWALL", "Elem2", none, [], none⟩

/-- The element the scenario walk produces for the space child. -/
def scenarioSpaceElem : ModelElement :=
  ⟨3, "IFCSPACE", "IFCSPACE", "Elem3", none, [], none⟩

/-- An engine whose property-set and material fetches throw for element 5
and succeed (empty) elsewhere. -/
def failAt5Engine : Engine where
  getLine := fun _ => .ok ⟨none, none⟩
  getPropertySets := fun i => if i = 5 then .error "boom" else .ok []
  getNameFromTypeCode := fun _ => "X"
  getMaterialsProperties := fun i => if i = 5 then .error "boom" else .ok []

/-- The same engine with the failures repaired. -/
def okAt5Engine : Engine where
  getLine := fun _ => .ok ⟨none, none⟩
  getPropertySets := fun _ => .ok []
  getNameFromTypeCode := fun _ => "X"
  getMaterialsProperties := fun _ => .ok []

/-- Agreement of two engines on every element id other than `i₀`. -/
def enginesAgreeExcept (eng eng' : Engine) (i₀ : Nat) : Prop :=
  eng.getNameFromTypeCode = eng'.getNameFromTypeCode ∧
    ∀ j, j ≠ i₀ →
      eng.getLine j = eng'.getLine j ∧
        eng.getPropertySets j = eng'.getPropertySets j ∧
        eng.getMaterialsProperties j = eng'.getMaterialsProperties j

/-- A three-layer raw layer-set material: parent name `pn`, layer `i`
with thickness `qᵢ` referencing a material named `nᵢ`. -/
def threeLayerMaterial (pn n₁ n₂ n₃ : String) (q₁ q₂ q₃ : ℚ) : RawMaterial :=
  { type := .str "IFCMATERIALLAYERSET"
    name := some ⟨some (.str pn)⟩
    category := none
    description := none
    density := none
    materialLayers := some
      [⟨some ⟨some (.num (some q₁))⟩, some ⟨some ⟨some (.str n₁)⟩⟩⟩,
       ⟨some ⟨some (.num (some q₂))⟩, some ⟨some ⟨some (.str n₂)⟩⟩⟩,
       ⟨some ⟨some (.num (some q₃))⟩, some ⟨some ⟨some (.str n₃)⟩⟩⟩]
    materialProfiles := none
    materialConstituents := none }

/-- An engine returning exactly one three-layer layer-set material. -/
def threeLayerEngine (pn n₁ n₂ n₃ : String) (q₁ q₂ q₃ : ℚ) : Engine where
  getLine := fun _ => .ok ⟨none, none⟩
  getPropertySets := fun _ => .ok []
  getNameFromTypeCode := fun _ => "X"
  getMaterialsProperties := fun _ =>
    .ok [some (threeLayerMaterial pn n₁ n₂ n₃ q₁ q₂ q₃)]

/-- The `MaterialInfo` entry synthesized for layer `i+1` referencing
material `n` inside parent `pn`. -/
def layerSideEntry (pn n : String) (i : Nat) : MaterialInfo :=
  { name := n, category := some "Layer Material"
    description := some ("Layer " ++ toString (i + 1) ++ " in " ++ pn)
    properties := some [] }

/-- The parent `MaterialInfo` entry of the three-layer material. -/
def threeLayerParentEntry (pn n₁ n₂ n₃ : String) (q₁ q₂ q₃ : ℚ) :
    MaterialInfo :=
  { name := pn, category := none, description := none
    properties := some
      [⟨"Layer 1 Thickness", .num (some q₁), "number"⟩,
       ⟨"Layer 1 Material", .str n₁, "string"⟩,
       ⟨"Layer 2 Thickness", .num (some q₂), "number"⟩,
       ⟨"Layer 2 Material", .str n₂, "string"⟩,
       ⟨"Layer 3 Thickness", .num (some q₃), "number"⟩,
       ⟨"Layer 3 Material", .str n₃, "string"⟩] }

/-- The structured entry the regrouping produces for the three-layer
material. -/
def threeLayerStructured (pn n₁ n₂ n₃ : String) (q₁ q₂ q₃ : ℚ) :
    StructuredMaterialInfo :=
  { name := pn, type := "LayerSet"
    layers := some
      [⟨1, some q₁, n₁⟩, ⟨2, some q₂, n₂⟩, ⟨3, some q₃, n₃⟩]
    properties := some [] }

/-- The matching `Layer <j+1> Thickness` / `Layer <j+1> Material`
property pair (thickness `j+1`, material `M<j+1>`). -/
def pairProps (j : Nat) : List PropertyValue :=
  [⟨"Layer " ++ toString (j + 1) ++ " Thickness",
      .num (some (mkRat (j + 1) 1)), "number"⟩,
   ⟨"Layer " ++ toString (j + 1) ++ " Material",
      .str ("M" ++ toString (j + 1)), "string"⟩]

/-- Synthetic `Layer <i> Thickness` / `Layer <i> Material` property pairs
for `i = 1..k`. -/
def layerPairProps (k : Nat) : List PropertyValue :=
  (List.range k).flatMap pairProps

/-- A `MaterialInfo` carrying matching layer pairs for indexes `1..k`. -/
def materialWithLayerPairs (k : Nat) : MaterialInfo :=
  ⟨"BigSet", none, none, some (layerPairProps k)⟩

/-- The layers with index `1..20` of `materialWithLayerPairs`. -/
def first20Layers : List MaterialLayer :=
  (List.range 20).map fun j =>
    ⟨j + 1, some (mkRat (j + 1) 1), "M" ++ toString (j + 1)⟩

/-- An engine whose property-set fetch returns one record whose
`Quantities` item coerces a non-numeric string (`Number("garbage")` is
`NaN`). -/
def nanEngine : Engine where
  getLine := fun _ => .ok ⟨none, none⟩
  getPropertySets := fun _ =>
    .ok [⟨[("Quantities",
            .arr [{ ArrayItem.empty with
                      volumeValue := some ⟨some (.str "garbage")⟩ }])]⟩]
  getNameFromTypeCode := fun _ => "X"
  getMaterialsProperties := fun _ => .ok []

/-- An element list the normalizer can produce whose property value is
`NaN` (its slices come from the extraction functions run on
`nanEngine`). -/
def nanElement : ModelElementL :=
  { id := 7, type := "IFCWALL", typeName := "IFCWALL", name := "W"
    globalId := none
    propertySets := extractAllProperties nanEngine 7
    materials := extractMaterialsInfo nanEngine 7
    structuredMaterials :=
      organizeStructuredMaterials (extractMaterialsInfo nanEngine 7) }

/-- A small well-behaved element used to witness the round-trip. -/
def finiteElement : ModelElementL :=
  { id := 3, type := "IFCSLAB", typeName := "IFCSLAB", name := "S"
    globalId := some "G3"
    propertySets := [⟨"Pset", [⟨"Area", .num (some (mkRat 25 2)), "number"⟩]⟩]
    materials := [⟨"Concrete", none, some "desc", none⟩]
    structuredMaterials := [⟨"Concrete", "Simple", none, none⟩] }

/-- An engine of the flat-listing variant whose every call throws. -/
def failSEngine : SEngine where
  getLine := fun _ => .error "down"
  getPropertySets := fun _ => .error "down"
  getMaterialsProperties := fun _ => .error "down"
  getTypeProperties := fun _ => .error "down"

/-- Schema text with two distinct names and distinct codes. -/
def goodSchemaText : String :=
  "export const IFCWALL = 100;export const IFCSLAB = 200;"

/-! ## Helper lemmas -/

theorem map_attach_eq {α β : Type} (l : List α) (f : α → β) :
    (l.attach.map fun c => f c.1) = l.map f := by
  rw [show (fun c : {x // x ∈ l} => f c.1) = f ∘ Subtype.val from rfl,
    ← List.map_map, List.attach_map_subtype_val]

theorem flatMap_attach_eq {α β : Type} (l : List α) (f : α → List β) :
    (l.attach.flatMap fun c => f c.1) = l.flatMap f := by
  rw [List.flatMap_def, List.flatMap_def,
    show (fun c : {x // x ∈ l} => f c.1) = f ∘ Subtype.val from rfl,
    ← List.map_map, List.attach_map_subtype_val]

/-- Insertion `recordInsert` appends when the key is not bound yet. -/
theorem recordInsert_notMem {κ ν : Type} [BEq κ] [LawfulBEq κ]
    (m : List (κ × ν)) (k : κ) (v : ν) (h : ∀ p ∈ m, p.1 ≠ k) :
    recordInsert m k v = m ++ [(k, v)] := by
  induction m with
  | nil => rfl
  | cons p t ih =>
    rcases p with ⟨a, b⟩
    have hp : a ≠ k := h (a, b) (by simp)
    have hb : (a == k) = false := beq_eq_false_iff_ne.mpr hp
    simp only [recordInsert, hb, Bool.false_eq_true, if_false,
      List.cons_append, List.cons.injEq, true_and]
    exact ih fun q hq => h q (by simp [hq])

/-- With pairwise-distinct names and codes, the map-building loop simply
accumulates the pairs (no overwrite happens). -/
theorem buildSchemaMaps_go (pairs : List (String × Int)) :
    ∀ (acc₁ : List (String × Int)) (acc₂ : List (Int × String)),
      (∀ p ∈ pairs, ∀ q ∈ acc₁, q.1 ≠ p.1) →
      (pairs.map Prod.fst).Nodup →
      (∀ p ∈ pairs, ∀ q ∈ acc₂, q.1 ≠ p.2) →
      (pairs.map Prod.snd).Nodup →
      pairs.foldl
          (fun (maps : List (String × Int) × List (Int × String)) p =>
            (recordInsert maps.1 p.1 p.2, recordInsert maps.2 p.2 p.1))
          (acc₁, acc₂) =
        (acc₁ ++ pairs, acc₂ ++ pairs.map fun p => (p.2, p.1)) := by
  induction pairs with
  | nil => intro acc₁ acc₂ _ _ _ _; simp
  | cons p t ih =>
    intro acc₁ acc₂ h₁ hn₁ h₂ hn₂
    simp only [List.foldl_cons]
    rw [recordInsert_notMem acc₁ p.1 p.2 fun q hq => h₁ p (by simp) q hq,
      recordInsert_notMem acc₂ p.2 p.1 fun q hq => h₂ p (by simp) q hq]
    rw [ih (acc₁ ++ [(p.1, p.2)]) (acc₂ ++ [(p.2, p.1)]) ?ha ?hb ?hc ?hd]
    · simp
    case ha =>
      intro r hr q hq
      rcases List.mem_append.mp hq with hq | hq
      · exact h₁ r (by simp [hr]) q hq
      · simp only [List.mem_singleton] at hq
        subst hq
        simp only [List.map_cons, List.nodup_cons] at hn₁
        intro hcontra
        have hcontra' : p.1 = r.1 := hcontra
        apply hn₁.1
        rw [hcontra']
        exact List.mem_map_of_mem Prod.fst hr
    case hb =>
      simp only [List.map_cons, List.nodup_cons] at hn₁
      exact hn₁.2
    case hc =>
      intro r hr q hq
      rcases List.mem_append.mp hq with hq | hq
      · exact h₂ r (by simp [hr]) q hq
      · simp only [List.mem_singleton] at hq
        subst hq
        simp only [List.map_cons, List.nodup_cons] at hn₂
        intro hcontra
        have hcontra' : p.2 = r.2 := hcontra
        apply hn₂.1
        rw [hcontra']
        exact List.mem_map_of_mem Prod.snd hr
    case hd =>
      simp only [List.map_cons, List.nodup_cons] at hn₂
      exact hn₂.2

/-- With distinct keys, `lookup` agrees with membership. -/
theorem lookup_eq_some_iff_mem {κ ν : Type} [BEq κ] [LawfulBEq κ]
    (l : List (κ × ν)) (hk : (l.map Prod.fst).Nodup) (k : κ) (v : ν) :
    l.lookup k = some v ↔ (k, v) ∈ l := by
  induction l with
  | nil => simp [List.lookup]
  | cons p t ih =>
    simp only [List.map_cons, List.nodup_cons] at hk
    rcases p with ⟨a, b⟩
    by_cases hka : k = a
    · subst hka
      simp only [List.lookup, beq_self_eq_true]
      constructor
      · intro hv
        simp only [Option.some.injEq] at hv
        simp [hv]
      · intro hv
        rcases List.mem_cons.mp hv with hv | hv
        · simp at hv
          simp [hv]
        · exact absurd (List.mem_map_of_mem Prod.fst hv) hk.1
    · simp only [List.lookup, beq_eq_false_iff_ne.mpr hka, List.mem_cons]
      rw [ih hk.2]
      constructor
      · intro hv; exact Or.inr hv
      · intro hv
        rcases hv with hv | hv
        · exact absurd (congrArg Prod.fst hv) hka
        · exact hv

/-- The entity loop over indices equals the loop over the taken prefix. -/
theorem rangeLoop_eq_take {β : Type} (f : Nat → Option β) :
    ∀ (l : List Nat) (k : Nat),
      (List.range (min l.length k)).filterMap (fun i => (l[i]?).bind f) =
        (l.take k).filterMap f := by
  intro l
  induction l with
  | nil => intro k; simp
  | cons a t ih =>
    intro k
    cases k with
    | zero => simp
    | succ k =>
      have hmin : min (a :: t).length (k + 1) = min t.length k + 1 := by
        simp [Nat.succ_min_succ]
      have hcomp : ((fun i => ((a :: t)[i]?).bind f) ∘ Nat.succ) =
          fun i => (t[i]?).bind f := by
        funext i
        simp
      rw [hmin, List.range_succ_eq_map, List.take_succ_cons]
      simp only [List.filterMap_cons, List.getElem?_cons_zero,
        Option.some_bind, List.filterMap_map, hcomp, ih k]

/-! ## Claim theorems -/

/-- C7: for every integer type code absent from the loaded schema's
inverse map, the type-name lookup returns the deterministic placeholder
`"Unknown Type (<code>)"` with the numeric code interpolated (and, being a
total function, cannot throw). -/
theorem getTypeName_absent_placeholder (inverseSchema : List (Int × String))
    (typeCode : Int) (h : inverseSchema.lookup typeCode = none) :
    getTypeName inverseSchema typeCode =
      "Unknown Type (" ++ toString typeCode ++ ")" := by
  simp [getTypeName, h]

/-- Witness for C7 at the schema built from `dupSchemaText` and the absent
code `7`. -/
theorem getTypeName_absent_placeholder_witness :
    (inverseIfcSchemaOf dupSchemaText).lookup 7 = none ∧
      getTypeName (inverseIfcSchemaOf dupSchemaText) 7 =
        "Unknown Type (" ++ toString (7 : Int) ++ ")" :=
  ⟨by decide, getTypeName_absent_placeholder (inverseIfcSchemaOf dupSchemaText)
    7 (by decide)⟩

/-- C10: the flat entity-listing variant processes only the first
`min(T, 100)` entity ids of the engine's listing (the taken prefix, in
order); entities at positions `100` and beyond never contribute an
element, whatever their type or data. -/
theorem processEntities_first_100 (eng : SEngine)
    (inverseSchema : List (Int × String)) :
    (∀ ids : List Nat,
        processEntities eng inverseSchema ids =
          (ids.take 100).filterMap (processOneEntity eng inverseSchema)) ∧
    ∀ pre post : List Nat, pre.length = 100 →
      processEntities eng inverseSchema (pre ++ post) =
        processEntities eng inverseSchema pre := by
  have hmain : ∀ ids : List Nat,
      processEntities eng inverseSchema ids =
        (ids.take 100).filterMap (processOneEntity eng inverseSchema) := by
    intro ids
    exact rangeLoop_eq_take (processOneEntity eng inverseSchema) ids 100
  refine ⟨hmain, fun pre post h => ?_⟩
  rw [hmain, hmain, ← h, List.take_left, h, ← h, List.take_length]

/-- Witness for C10: a 100-id prefix with one extra id appended yields the
same output as the prefix alone. -/
theorem processEntities_first_100_witness :
    (List.range 100).length = 100 ∧
      processEntities failSEngine [] (List.range 100 ++ [200]) =
        processEntities failSEngine [] (List.range 100) :=
  ⟨by simp, (processEntities_first_100 failSEngine []).2 (List.range 100)
    [200] (by simp)⟩

/-- C3 counterexample: on the schema text
`export const A = 1;export const A = 2;` the forward map sends `A` to `2`
while the inverse map still sends `1` to `A`, so the two maps are not
exact inverses of each other over the matched entries. -/
theorem schema_maps_not_inverses :
    ¬(((ifcSchemaOf dupSchemaText).lookup "A" = some 1) ↔
      ((inverseIfcSchemaOf dupSchemaText).lookup 1 = some "A")) := by
  decide

/-- C3 (amended): when the matched `export const NAME = NUMBER;` entries
of the schema text have pairwise-distinct names and pairwise-distinct
numbers, the forward and inverse maps are exact inverses of each other:
forward maps `n` to `c` iff inverse maps `c` to `n`.  (With a duplicate
name or number, later matches overwrite earlier ones and the maps can
disagree.) -/
theorem schema_maps_inverse_of_nodup (text : String)
    (h₁ : ((schemaMatches text).map Prod.fst).Nodup)
    (h₂ : ((schemaMatches text).map Prod.snd).Nodup) :
    ∀ (n : String) (c : Int),
      (ifcSchemaOf text).lookup n = some c ↔
        (inverseIfcSchemaOf text).lookup c = some n := by
  intro n c
  have hbuild := buildSchemaMaps_go (schemaMatches text) [] []
    (by simp) h₁ (by simp) h₂
  rw [ifcSchemaOf, inverseIfcSchemaOf, buildSchemaMaps, hbuild]
  simp only [List.nil_append]
  rw [lookup_eq_some_iff_mem _ h₁,
    lookup_eq_some_iff_mem _ (by simpa [List.map_map, Function.comp] using h₂)]
  simp only [List.mem_map]
  constructor
  · intro hmem
    exact ⟨(n, c), hmem, rfl⟩
  · rintro ⟨⟨a, b⟩, hmem, hab⟩
    simp only [Prod.mk.injEq] at hab
    rcases hab with ⟨hb, ha⟩
    subst hb; subst ha
    exact hmem

/-- Induction over spatial trees: a property holds at a node once it
holds at all its children. -/
theorem spatialNode_ind (P : SpatialNode → Prop)
    (h : ∀ i ty cs, (∀ c ∈ cs, P c) → P (.mk i ty cs)) : ∀ t, P t
  | .mk i ty cs => h i ty cs fun c hc => spatialNode_ind P h c
  decreasing_by
    have := List.sizeOf_lt_of_mem hc
    simp only [SpatialNode.mk.sizeOf_spec]
    omega

/-- Attach-free unfolding of `extractModelElements`. -/
theorem extractModelElements_eq (eng : Engine) (showRaw includeAll : Bool)
    (i : Nat) (ty : NodeType) (cs : List SpatialNode) :
    extractModelElements eng showRaw includeAll (.mk i ty cs) =
      (match processModelElement eng showRaw (.mk i ty cs) includeAll with
       | some e => [e]
       | none => []) ++
      cs.flatMap (extractModelElements eng showRaw includeAll) := by
  rw [extractModelElements, flatMap_attach_eq]

/-- Attach-free unfolding of `preorderNodes`. -/
theorem preorderNodes_eq (i : Nat) (ty : NodeType) (cs : List SpatialNode) :
    preorderNodes (.mk i ty cs) =
      .mk i ty cs :: cs.flatMap preorderNodes := by
  rw [preorderNodes, flatMap_attach_eq]

/-- Attach-free unfolding of `nodeCount`. -/
theorem nodeCount_eq (i : Nat) (ty : NodeType) (cs : List SpatialNode) :
    nodeCount (.mk i ty cs) = 1 + (cs.map nodeCount).sum := by
  rw [nodeCount, map_attach_eq]

/-- Witness for C3 (amended) on a duplicate-free schema text. -/
theorem schema_maps_inverse_of_nodup_witness :
    ((schemaMatches goodSchemaText).map Prod.fst).Nodup ∧
      ((schemaMatches goodSchemaText).map Prod.snd).Nodup ∧
      ((ifcSchemaOf goodSchemaText).lookup "IFCWALL" = some 100 ↔
        (inverseIfcSchemaOf goodSchemaText).lookup 100 = some "IFCWALL") :=
  ⟨by decide, by decide,
    schema_maps_inverse_of_nodup goodSchemaText (by decide) (by decide)
      "IFCWALL" 100⟩

/-- C4: the element-extraction walk visits exactly the nodes of the
spatial tree, once each, in pre-order (each node processed before its
children, children in engine-reported order): the output is the
`filterMap` of the per-node processing over the pre-order node listing,
whose length is the node count `N`; hence the walk returns at most `N`
elements. -/
theorem extract_walk_preorder (eng : Engine) (showRaw includeAll : Bool)
    (t : SpatialNode) :
    extractModelElements eng showRaw includeAll t =
      (preorderNodes t).filterMap
        (fun n => processModelElement eng showRaw n includeAll) ∧
    (preorderNodes t).length = nodeCount t ∧
    (extractModelElements eng showRaw includeAll t).length ≤ nodeCount t := by
  have h1 : ∀ u : SpatialNode,
      extractModelElements eng showRaw includeAll u =
        (preorderNodes u).filterMap
          (fun n => processModelElement eng showRaw n includeAll) := by
    refine spatialNode_ind _ ?_
    intro i ty cs ih
    rw [extractModelElements_eq, preorderNodes_eq, List.filterMap_cons,
      List.filterMap_flatMap]
    cases hp : processModelElement eng showRaw (.mk i ty cs) includeAll with
    | none =>
      simp only [List.nil_append]
      rw [List.flatMap_def, List.flatMap_def]
      exact congrArg List.flatten (List.map_congr_left ih)
    | some e =>
      simp only [List.cons_append, List.nil_append, List.cons.injEq, true_and]
      rw [List.flatMap_def, List.flatMap_def]
      exact congrArg List.flatten (List.map_congr_left ih)
  have h2 : ∀ u : SpatialNode, (preorderNodes u).length = nodeCount u := by
    refine spatialNode_ind _ ?_
    intro i ty cs ih
    rw [preorderNodes_eq, nodeCount_eq]
    simp only [List.length_cons, List.length_flatMap]
    have hmaps : List.map (List.length ∘ preorderNodes) cs =
        List.map nodeCount cs :=
      List.map_congr_left fun c hc => ih c hc
    rw [hmaps]
    omega
  refine ⟨h1 t, h2 t, ?_⟩
  rw [h1 t, ← h2 t]
  exact List.length_filterMap_le _ _

/-- C5: in the end-to-end scenario (a root not on the allow-list, an
`IFCWALL` child and an `IFCSPACE` child), the walk with
`includeAll = false` yields exactly the wall element, while with
`includeAll = true` it yields the root and both children — in particular
both children's elements are produced. -/
theorem scenario_walk_elements :
    extractModelElements scenarioEngine false false scenarioTree =
      [scenarioWallElem] ∧
    extractModelElements scenarioEngine false true scenarioTree =
      [scenarioRootElem, scenarioWallElem, scenarioSpaceElem] ∧
    scenarioWallElem ∈ extractModelElements scenarioEngine false true
      scenarioTree ∧
    scenarioSpaceElem ∈ extractModelElements scenarioEngine false true
      scenarioTree := by
  have heval : ∀ ia : Bool,
      extractModelElements scenarioEngine false ia scenarioTree =
        (match processModelElement scenarioEngine false
            (.mk 1 (.str "IFCPROJECT")
              [.mk 2 (.str "IFCWALL") [], .mk 3 (.str "IFCSPACE") []]) ia with
         | some e => [e]
         | none => []) ++
        ((match processModelElement scenarioEngine false
            (.mk 2 (.str "IFCWALL") []) ia with
          | some e => [e]
          | none => []) ++
         ((match processModelElement scenarioEngine false
            (.mk 3 (.str "IFCSPACE") []) ia with
           | some e => [e]
           | none => []) ++ [])) := by
    intro ia
    show extractModelElements scenarioEngine false ia
      (.mk 1 (.str "IFCPROJECT")
        [.mk 2 (.str "IFCWALL") [], .mk 3 (.str "IFCSPACE") []]) = _
    rw [extractModelElements_eq]
    simp only [List.flatMap_cons, List.flatMap_nil]
    rw [extractModelElements_eq, extractModelElements_eq]
    simp only [List.flatMap_nil, List.append_nil, List.append_assoc]
  refine ⟨?_, ?_, ?_, ?_⟩
  · rw [heval false]; decide
  · rw [heval true]; decide
  · rw [heval true]; decide
  · rw [heval true]; decide

/-- C6: a thrown property-set fetch yields an empty property-set list for
that element, a thrown material fetch yields an empty material list for
that element, and the processing of every other element is unaffected:
two engines that agree away from the failing id produce identical results
for every node with a different id. -/
theorem per_element_error_isolation :
    (∀ (eng : Engine) (elementId : Nat) (e : String),
        eng.getPropertySets elementId = .error e →
        extractAllProperties eng elementId = []) ∧
    (∀ (eng : Engine) (elementId : Nat) (e : String),
        eng.getMaterialsProperties elementId = .error e →
        extractMaterialsInfo eng elementId = []) ∧
    ∀ (eng eng' : Engine) (i₀ : Nat), enginesAgreeExcept eng eng' i₀ →
      ∀ (node : SpatialNode) (showRaw includeAll : Bool),
        node.expressID ≠ i₀ →
        processModelElement eng showRaw node includeAll =
          processModelElement eng' showRaw node includeAll := by
  refine ⟨?_, ?_, ?_⟩
  · intro eng elementId e h
    simp [extractAllProperties, h]
  · intro eng elementId e h
    simp [extractMaterialsInfo, h]
  · rintro eng eng' i₀ ⟨hname, hag⟩ node showRaw includeAll hne
    obtain ⟨hl, hp, _⟩ := hag node.expressID hne
    simp only [processModelElement, hl, hname, extractAllProperties, hp]

/-- Witness for C6: an engine failing at element 5 yields empty slices
there, and agrees with its repaired twin on a node with id 2. -/
theorem per_element_error_isolation_witness :
    failAt5Engine.getPropertySets 5 = .error "boom" ∧
    extractAllProperties failAt5Engine 5 = [] ∧
    failAt5Engine.getMaterialsProperties 5 = .error "boom" ∧
    extractMaterialsInfo failAt5Engine 5 = [] ∧
    enginesAgreeExcept failAt5Engine okAt5Engine 5 ∧
    processModelElement failAt5Engine false (.mk 2 (.str "IFCWALL") [])
        false =
      processModelElement okAt5Engine false (.mk 2 (.str "IFCWALL") [])
        false := by
  have hag : enginesAgreeExcept failAt5Engine okAt5Engine 5 := by
    refine ⟨rfl, fun j hj => ⟨rfl, ?_, ?_⟩⟩ <;>
      simp [failAt5Engine, okAt5Engine, hj]
  exact ⟨rfl, per_element_error_isolation.1 failAt5Engine 5 "boom" rfl, rfl,
    per_element_error_isolation.2.1 failAt5Engine 5 "boom" rfl, hag,
    per_element_error_isolation.2.2 failAt5Engine okAt5Engine 5 hag
      (.mk 2 (.str "IFCWALL") []) false false (by decide)⟩

/-- C1 counterexample: (i) a `Quantities` item carrying only
`WeightValue.value = 5` emits nothing in `extractPropertySet` — the claim
predicts a PropertyValue with value `5` and unit `"kg"`; (ii) an item
carrying both `LengthValue` and `VolumeValue` emits the volume, not the
length the claim's field order predicts; (iii) in the flat-listing
variant an `IFCQUANTITY`-typed item with none of the five fields is
emitted with value `"Unknown"` and no unit — the claim predicts it is
skipped. -/
theorem quantities_item_cex :
    extractQuantityItem weightOnlyItem = none ∧
    extractQuantityItem lengthAndVolumeItem =
      some ⟨"Volume", .num (some 2), "number"⟩ ∧
    extractPropertySet ⟨[("Quantities", .arr [weightOnlyItem])]⟩ =
      ⟨"Unnamed Set", []⟩ ∧
    extractSimpleQuantity [] bareQuantItem =
      some ⟨"Unknown", .str "Unknown", none, "IFCQUANTITYAREA"⟩ := by
  decide

/-- C1 (amended): in `extractPropertySet`, a `Quantities` item is checked
only for `VolumeValue`, `AreaValue`, `LengthValue`, in that priority
order, and the first with a defined `.value` determines the emitted
PropertyValue's value (no unit is emitted — `PropertyValue` has no unit
field); an item with none of the three (in particular one carrying only
`WeightValue` or `CountValue`) emits nothing.  An item with
`AreaValue.value = q` and no volume yields
`{name := Name.value if truthy else "Area", value := q, type :=
"number"}`.  In the flat-listing variant, an `IFCQUANTITY`-typed item is
checked for the five holders `LengthValue`, `AreaValue`, `VolumeValue`,
`WeightValue`, `CountValue` in that order, with units `m`, `m²`, `m³`,
`kg`, `count` respectively, but an item with none of the five is emitted
with value `"Unknown"` and no unit rather than skipped. -/
theorem quantities_normalization (item : ArrayItem)
    (inverseSchema : List (Int × String)) (si : SQuantItem) (s : String) :
    (∀ q : ℚ, holderDefined item.volumeValue = none →
        holderDefined item.areaValue = some (.num (some q)) →
        extractQuantityItem item =
          some ⟨quantityItemName item "Area", .num (some q), "number"⟩) ∧
    (holderDefined item.volumeValue = none →
        holderDefined item.areaValue = none →
        holderDefined item.lengthValue = none →
        extractQuantityItem item = none) ∧
    (si.type = some (.str s) → s ≠ "" →
        containsSub s "IFCQUANTITY" = true →
      (∀ v, si.lengthValue = some v →
          extractSimpleQuantity inverseSchema si =
            some ⟨simpleQuantityName si, .num (jsNumber v), some "m", s⟩) ∧
      (si.lengthValue = none → ∀ v, si.areaValue = some v →
          extractSimpleQuantity inverseSchema si =
            some ⟨simpleQuantityName si, .num (jsNumber v), some "m²", s⟩) ∧
      (si.lengthValue = none → si.areaValue = none →
          ∀ v, si.volumeValue = some v →
          extractSimpleQuantity inverseSchema si =
            some ⟨simpleQuantityName si, .num (jsNumber v), some "m³", s⟩) ∧
      (si.lengthValue = none → si.areaValue = none →
          si.volumeValue = none → ∀ v, si.weightValue = some v →
          extractSimpleQuantity inverseSchema si =
            some ⟨simpleQuantityName si, .num (jsNumber v), some "kg", s⟩) ∧
      (si.lengthValue = none → si.areaValue = none →
          si.volumeValue = none → si.weightValue = none →
          ∀ v, si.countValue = some v →
          extractSimpleQuantity inverseSchema si =
            some ⟨simpleQuantityName si, .num (jsNumber v),
              some "count", s⟩) ∧
      (si.lengthValue = none → si.areaValue = none →
          si.volumeValue = none → si.weightValue = none →
          si.countValue = none →
          extractSimpleQuantity inverseSchema si =
            some ⟨simpleQuantityName si, .str "Unknown", none, s⟩)) := by
  refine ⟨?_, ?_, ?_⟩
  · intro q hv ha
    simp [extractQuantityItem, hv, ha, jsNumber]
  · intro hv ha hl
    simp [extractQuantityItem, hv, ha, hl]
  · intro hty hne hsub
    have htruthy : (NodeType.str s).truthy = true := by
      simp [NodeType.truthy, hne]
    refine ⟨?_, ?_, ?_, ?_, ?_, ?_⟩
    · intro v hl
      simp [extractSimpleQuantity, hty, htruthy, hsub, hl]
    · intro hl v ha
      simp [extractSimpleQuantity, hty, htruthy, hsub, hl, ha]
    · intro hl ha v hv
      simp [extractSimpleQuantity, hty, htruthy, hsub, hl, ha, hv]
    · intro hl ha hv v hw
      simp [extractSimpleQuantity, hty, htruthy, hsub, hl, ha, hv, hw]
    · intro hl ha hv hw v hc
      simp [extractSimpleQuantity, hty, htruthy, hsub, hl, ha, hv, hw, hc]
    · intro hl ha hv hw hc
      simp [extractSimpleQuantity, hty, htruthy, hsub, hl, ha, hv, hw, hc]

/-- Witness for C1 (amended): the `AreaValue.value = 12.5` item and an
`IFCQUANTITYLENGTH` item with `LengthValue = 3`. -/
theorem quantities_normalization_witness :
    holderDefined areaItem.volumeValue = none ∧
    holderDefined areaItem.areaValue =
      some (.num (some (mkRat 25 2))) ∧
    extractQuantityItem areaItem =
      some ⟨quantityItemName areaItem "Area",
        .num (some (mkRat 25 2)), "number"⟩ ∧
    lengthQuantItem.type = some (.str "IFCQUANTITYLENGTH") ∧
    extractSimpleQuantity [] lengthQuantItem =
      some ⟨simpleQuantityName lengthQuantItem,
        .num (jsNumber (.num (some 3))), some "m", "IFCQUANTITYLENGTH"⟩ :=
  ⟨rfl, rfl,
    (quantities_normalization areaItem [] lengthQuantItem
      "IFCQUANTITYLENGTH").1 (mkRat 25 2) rfl rfl,
    rfl,
    ((quantities_normalization areaItem [] lengthQuantItem
        "IFCQUANTITYLENGTH").2.2 rfl (by decide) (by decide)).1
      (.num (some 3)) rfl⟩

/-- C2 counterexample: for a composite layer-set record with 3 layers
referencing the distinct materials Concrete / Insulation / Gypsum, the
flat extraction emits 4 `MaterialInfo` entries (the 3 referenced layer
materials plus the composite's own entry), but the structured output of
the composition is a *single* `LayerSet` entry — the 3 referenced
materials do not appear as additional `Simple` entries in it. -/
theorem threeLayer_structured_cex :
    (extractMaterialsInfo
        (threeLayerEngine "Wall Layers" "Concrete" "Insulation" "Gypsum"
          10 5 2) 0).length = 4 ∧
    organizeStructuredMaterials
        (extractMaterialsInfo
          (threeLayerEngine "Wall Layers" "Concrete" "Insulation" "Gypsum"
            10 5 2) 0) =
      [threeLayerStructured "Wall Layers" "Concrete" "Insulation" "Gypsum"
        10 5 2] := by
  decide

/-- C2 (amended): for every composite layer-set record with 3 layers
referencing named materials, `extractMaterialsInfo` yields the 3
referenced layer materials as additional simple `MaterialInfo` entries
(category `"Layer Material"`) followed by the composite's own entry, and
`organizeStructuredMaterials` of that list yields exactly one
`LayerSet`-typed entry with exactly 3 layers — the referenced layer
materials are excluded from the structured output (by their category and
by name matching against the emitted layers), so no additional entries
accompany it. -/
theorem threeLayer_normalization (pn n₁ n₂ n₃ : String) (q₁ q₂ q₃ : ℚ) :
    extractMaterialsInfo (threeLayerEngine pn n₁ n₂ n₃ q₁ q₂ q₃) 0 =
      [layerSideEntry pn n₁ 0, layerSideEntry pn n₂ 1,
       layerSideEntry pn n₃ 2,
       threeLayerParentEntry pn n₁ n₂ n₃ q₁ q₂ q₃] ∧
    organizeStructuredMaterials
        (extractMaterialsInfo (threeLayerEngine pn n₁ n₂ n₃ q₁ q₂ q₃) 0) =
      [threeLayerStructured pn n₁ n₂ n₃ q₁ q₂ q₃] := by
  have ht1 : toString (1 : Nat) = "1" := rfl
  have ht2 : toString (2 : Nat) = "2" := rfl
  have ht3 : toString (3 : Nat) = "3" := rfl
  have hflat : extractMaterialsInfo
      (threeLayerEngine pn n₁ n₂ n₃ q₁ q₂ q₃) 0 =
      [layerSideEntry pn n₁ 0, layerSideEntry pn n₂ 1,
       layerSideEntry pn n₃ 2,
       threeLayerParentEntry pn n₁ n₂ n₃ q₁ q₂ q₃] := by
    simp [extractMaterialsInfo, threeLayerEngine, threeLayerMaterial,
      processRawMaterial, holderDefined, jsToString, NodeType.eqStr,
      layerContrib, concatContribs, refName, jsNumber, layerSideEntry,
      threeLayerParentEntry, List.enum, List.enumFrom, ht1, ht2, ht3]
  refine ⟨hflat, ?_⟩
  rw [hflat]
  have hfilter1 :
      [layerSideEntry pn n₁ 0, layerSideEntry pn n₂ 1,
       layerSideEntry pn n₃ 2,
       threeLayerParentEntry pn n₁ n₂ n₃ q₁ q₂ q₃].filter
        hasLayerThicknessProp =
      [threeLayerParentEntry pn n₁ n₂ n₃ q₁ q₂ q₃] := rfl
  have hfilter2 :
      [layerSideEntry pn n₁ 0, layerSideEntry pn n₂ 1,
       layerSideEntry pn n₃ 2,
       threeLayerParentEntry pn n₁ n₂ n₃ q₁ q₂ q₃].filter
        (hasNamePropWith "Profile") = [] := rfl
  have hfilter3 :
      [layerSideEntry pn n₁ 0, layerSideEntry pn n₂ 1,
       layerSideEntry pn n₃ 2,
       threeLayerParentEntry pn n₁ n₂ n₃ q₁ q₂ q₃].filter
        (hasNamePropWith "Constituent") = [] := rfl
  have hscan :
      layerScan
        [⟨"Layer 1 Thickness", .num (some q₁), "number"⟩,
         ⟨"Layer 1 Material", .str n₁, "string"⟩,
         ⟨"Layer 2 Thickness", .num (some q₂), "number"⟩,
         ⟨"Layer 2 Material", .str n₂, "string"⟩,
         ⟨"Layer 3 Thickness", .num (some q₃), "number"⟩,
         ⟨"Layer 3 Material", .str n₃, "string"⟩] =
      [⟨1, some q₁, n₁⟩, ⟨2, some q₂, n₂⟩, ⟨3, some q₃, n₃⟩] := rfl
  have hpropsFilter :
      [(⟨"Layer 1 Thickness", .num (some q₁), "number"⟩ : PropertyValue),
       ⟨"Layer 1 Material", .str n₁, "string"⟩,
       ⟨"Layer 2 Thickness", .num (some q₂), "number"⟩,
       ⟨"Layer 2 Material", .str n₂, "string"⟩,
       ⟨"Layer 3 Thickness", .num (some q₃), "number"⟩,
       ⟨"Layer 3 Material", .str n₃, "string"⟩].filter
        (fun p => !containsSub p.name "Layer") = [] := rfl
  simp only [organizeStructuredMaterials, hfilter1, hfilter2, hfilter3]
  simp only [threeLayerParentEntry, List.filterMap_cons, List.filterMap_nil,
    hscan, hpropsFilter, List.length_cons, List.length_nil]
  simp [layerSideEntry, threeLayerStructured, List.contains_cons,
    ht1, ht2, ht3]

/-- Splitting the generated pair list at index 20. -/
theorem layerPairProps_split (m : Nat) :
    layerPairProps (20 + m) =
      layerPairProps 20 ++
        (List.range m).flatMap (fun j => pairProps (20 + j)) := by
  unfold layerPairProps
  rw [List.range_add, List.flatMap_append, List.flatMap_map]

/-- The scan's lookups succeed on the first 20 generated pairs. -/
theorem find?_layerPairProps20 : ∀ j ∈ List.range 20,
    (layerPairProps 20).find?
        (fun p => p.name == "Layer " ++ toString (j + 1) ++ " Thickness") =
      some ⟨"Layer " ++ toString (j + 1) ++ " Thickness",
        .num (some (mkRat (j + 1) 1)), "number"⟩ ∧
    (layerPairProps 20).find?
        (fun p => p.name == "Layer " ++ toString (j + 1) ++ " Material") =
      some ⟨"Layer " ++ toString (j + 1) ++ " Material",
        .str ("M" ++ toString (j + 1)), "string"⟩ := by
  decide

/-- A successful lookup in a prefix survives appending. -/
theorem find?_append_some {α : Type} (p : α → Bool) (l₁ l₂ : List α) (b : α)
    (h : l₁.find? p = some b) : (l₁ ++ l₂).find? p = some b := by
  rw [List.find?_append, h, Option.or_some]

/-- The index-bounded scan over the 20 generated pairs followed by any
tail yields exactly the first 20 layers — whatever pairs the tail holds. -/
theorem layerScan_capped (tail : List PropertyValue) :
    layerScan (layerPairProps 20 ++ tail) = first20Layers := by
  unfold layerScan first20Layers
  refine (List.filterMap_congr ?_).trans
    (congrFun (List.filterMap_eq_map fun j =>
      (⟨j + 1, some (mkRat (j + 1) 1),
        "M" ++ toString (j + 1)⟩ : MaterialLayer)) (List.range 20))
  intro j hj
  obtain ⟨hth, hmat⟩ := find?_layerPairProps20 j hj
  simp only [Function.comp]
  rw [find?_append_some _ _ tail _ hth, find?_append_some _ _ tail _ hmat]
  rfl

/-- A string starting with `"Layer "` contains `"Layer"`. -/
theorem layer_head_containsSub (x : String) :
    containsSub ("Layer " ++ x) "Layer" = true := by
  unfold containsSub
  rw [String.data_append,
    show "Layer ".data = ['L', 'a', 'y', 'e', 'r', ' '] from rfl]
  have hpre : "Layer".data.isPrefixOf
      ('L' :: 'a' :: 'y' :: 'e' :: 'r' :: ' ' :: x.data) = true := rfl
  simp only [List.cons_append, List.nil_append, charsContain, hpre,
    Bool.true_or]

/-- Every layer the scan produces has index at most 20. -/
theorem layerScan_index_le (ps : List PropertyValue) :
    ∀ l ∈ layerScan ps, l.index ≤ 20 := by
  intro l hl
  unfold layerScan at hl
  rw [List.mem_filterMap] at hl
  obtain ⟨j, hj, hjeq⟩ := hl
  rw [List.mem_range] at hj
  dsimp only at hjeq
  split at hjeq
  · rename_i tp mp hfind
    simp only [Option.some.injEq] at hjeq
    subst hjeq
    show j + 1 ≤ 20
    omega
  · exact absurd hjeq (by simp)

/-- C8: for matching layer pairs with indexes `1..k`, `k > 20`, the
regrouping produces a `LayerSet` entry containing exactly the layers with
index at most 20 (its layer list is the first 20 layers, whatever `k`
is), and no structured entry anywhere carries a layer of index greater
than 20 — the extra layers are silently lost. -/
theorem organize_caps_at_20_layers (k : Nat) (hk : 20 < k) :
    (organizeStructuredMaterials [materialWithLayerPairs k]).head? =
      some ⟨"BigSet", "LayerSet", some first20Layers, some []⟩ ∧
    ∀ (ms : List MaterialInfo), ∀ e ∈ organizeStructuredMaterials ms,
      ∀ ls, e.layers = some ls → ∀ l ∈ ls, l.index ≤ 20 := by
  constructor
  · obtain ⟨m, rfl⟩ : ∃ m, k = 20 + m := ⟨k - 20, by omega⟩
    have hsplit := layerPairProps_split m
    have hpred : hasLayerThicknessProp (materialWithLayerPairs (20 + m)) =
        true := by
      unfold hasLayerThicknessProp materialWithLayerPairs
      rw [hsplit]
      dsimp only
      rw [List.any_append]
      have h20 : (layerPairProps 20).any
          (fun p => containsSub p.name "Layer" &&
            containsSub p.name "Thickness") = true := by decide
      rw [h20, Bool.true_or]
    have hfilterNil : (layerPairProps (20 + m)).filter
        (fun p => !containsSub p.name "Layer") = [] := by
      rw [hsplit, List.filter_append]
      have h20 : (layerPairProps 20).filter
          (fun p => !containsSub p.name "Layer") = [] := by decide
      rw [h20, List.nil_append, List.filter_eq_nil_iff]
      intro p hp
      rw [List.mem_flatMap] at hp
      obtain ⟨j, _, hpj⟩ := hp
      simp only [pairProps, List.mem_cons, List.not_mem_nil, or_false] at hpj
      have hname : containsSub p.name "Layer" = true := by
        rcases hpj with hpj | hpj <;> subst hpj <;>
          simp only [] <;>
          rw [String.append_assoc, layer_head_containsSub]
      simp [hname]
    have hscan : layerScan (layerPairProps (20 + m)) = first20Layers := by
      rw [hsplit, layerScan_capped]
    simp only [organizeStructuredMaterials, materialWithLayerPairs,
      List.filter_cons, List.filter_nil]
    rw [show hasLayerThicknessProp ⟨"BigSet", none, none,
      some (layerPairProps (20 + m))⟩ = true from hpred]
    simp only [if_true, List.filterMap_cons, List.filterMap_nil]
    simp only [hscan, hfilterNil]
    simp [first20Layers]
  · intro ms e he ls hls l hl
    simp only [organizeStructuredMaterials, List.mem_append] at he
    rcases he with ((he | he) | he) | he
    · rw [List.mem_filterMap] at he
      obtain ⟨mi, _, heq⟩ := he
      split at heq
      · exact absurd heq (by simp)
      · split at heq
        · simp only [Option.some.injEq] at heq
          subst heq
          simp only [Option.some.injEq] at hls
          subst hls
          exact layerScan_index_le _ l hl
        · exact absurd heq (by simp)
    · rw [List.mem_filterMap] at he
      obtain ⟨mi, _, heq⟩ := he
      split at heq
      · exact absurd heq (by simp)
      · simp only [Option.some.injEq] at heq
        subst heq
        exact absurd hls (by simp)
    · rw [List.mem_filterMap] at he
      obtain ⟨mi, _, heq⟩ := he
      split at heq
      · exact absurd heq (by simp)
      · simp only [Option.some.injEq] at heq
        subst heq
        exact absurd hls (by simp)
    · rw [List.mem_filterMap] at he
      obtain ⟨mi, _, heq⟩ := he
      split at heq
      · simp only [Option.some.injEq] at heq
        subst heq
        exact absurd hls (by simp)
      · exact absurd heq (by simp)

/-- Witness for C8 at `k = 21`. -/
theorem organize_caps_at_20_layers_witness :
    20 < 21 ∧
      (organizeStructuredMaterials [materialWithLayerPairs 21]).head? =
        some ⟨"BigSet", "LayerSet", some first20Layers, some []⟩ :=
  ⟨by decide, (organize_caps_at_20_layers 21 (by decide)).1⟩

/-- Attach-free unfolding of `jsonToTree` on arrays. -/
theorem jsonToTree_arr (xs : List Json) :
    jsonToTree (.arr xs) = .arr (xs.map jsonToTree) := by
  rw [jsonToTree, map_attach_eq]

/-- Attach-free unfolding of `jsonToTree` on objects. -/
theorem jsonToTree_obj (kvs : List (String × Json)) :
    jsonToTree (.obj kvs) =
      .obj (kvs.map fun kv => (kv.1, jsonToTree kv.2)) := by
  rw [jsonToTree]
  exact congrArg JsTree.obj
    (map_attach_eq kvs fun p => (p.1, jsonToTree p.2))

/-- Parsing the serialization of a finite primitive recovers its runtime
value. -/
theorem tree_stringify_val (v : JsVal) (h : jsValFinite v = true) :
    jsonToTree (stringifyJsVal v) = treeOfJsVal v := by
  cases v with
  | num q =>
    cases q with
    | none => simp [jsValFinite] at h
    | some q' => simp [stringifyJsVal, treeOfJsVal, jsonToTree]
  | str s => simp [stringifyJsVal, treeOfJsVal, jsonToTree]
  | bool b => simp [stringifyJsVal, treeOfJsVal, jsonToTree]
  | null => simp [stringifyJsVal, treeOfJsVal, jsonToTree]

/-- Round trip of one normalized property. -/
theorem tree_stringify_pv (p : PropertyValue)
    (h : propertyValueFinite p = true) :
    jsonToTree (stringifyPropertyValue p) = treeOfPropertyValue p := by
  unfold stringifyPropertyValue treeOfPropertyValue
  rw [jsonToTree_obj]
  simp [jsonToTree, tree_stringify_val p.value h]

/-- Round trip of a list of finite normalized properties. -/
theorem tree_stringify_pvs (ps : List PropertyValue)
    (h : ps.all propertyValueFinite = true) :
    (ps.map stringifyPropertyValue).map jsonToTree =
      ps.map treeOfPropertyValue := by
  rw [List.map_map]
  refine List.map_congr_left fun p hp => ?_
  rw [List.all_eq_true] at h
  exact tree_stringify_pv p (h p hp)

/-- Round trip of one property set. -/
theorem tree_stringify_pset (ps : PropSet) (h : propSetFinite ps = true) :
    jsonToTree (stringifyPropSet ps) = treeOfPropSet ps := by
  unfold stringifyPropSet treeOfPropSet
  rw [jsonToTree_obj]
  simp [jsonToTree, jsonToTree_arr, tree_stringify_pvs ps.properties h]

/-- The mapped image of an optional serialized field. -/
theorem map_optField {α : Type} (k : String) (v : Option α) (f : α → Json)
    (g : α → JsTree) (h : ∀ x, v = some x → jsonToTree (f x) = g x) :
    (optField k v f).map (fun kv => (kv.1, jsonToTree kv.2)) =
      optFieldT k v g := by
  cases v with
  | none => rfl
  | some x => simp [optField, optFieldT, h x rfl]

/-- Round trip of one material record. -/
theorem tree_stringify_material (m : MaterialInfo)
    (h : materialInfoFinite m = true) :
    jsonToTree (stringifyMaterialInfo m) = treeOfMaterialInfo m := by
  have hprops : ∀ ps, m.properties = some ps →
      jsonToTree (Json.arr (ps.map stringifyPropertyValue)) =
        JsTree.arr (ps.map treeOfPropertyValue) := by
    intro ps hps
    unfold materialInfoFinite at h
    rw [hps] at h
    simp only [Option.getD_some] at h
    rw [jsonToTree_arr, tree_stringify_pvs ps h]
  unfold stringifyMaterialInfo treeOfMaterialInfo
  rw [jsonToTree_obj]
  simp only [List.map_append, List.map_cons, List.map_nil]
  rw [map_optField "category" m.category Json.str JsTree.str
      (fun x _ => by simp [jsonToTree]),
    map_optField "description" m.description Json.str JsTree.str
      (fun x _ => by simp [jsonToTree]),
    map_optField "properties" m.properties
      (fun ps => Json.arr (ps.map stringifyPropertyValue))
      (fun ps => JsTree.arr (ps.map treeOfPropertyValue)) hprops]
  simp [jsonToTree]

/-- Round trip of one structured-material layer. -/
theorem tree_stringify_layer (l : MaterialLayer)
    (h : l.thickness.isSome = true) :
    jsonToTree (stringifyMaterialLayer l) = treeOfMaterialLayer l := by
  unfold stringifyMaterialLayer treeOfMaterialLayer
  rw [jsonToTree_obj]
  cases hth : l.thickness with
  | none => rw [hth] at h; simp at h
  | some q => simp [jsonToTree, hth]

/-- Round trip of one structured material. -/
theorem tree_stringify_structured (s : StructuredMaterialInfo)
    (h : structuredFinite s = true) :
    jsonToTree (stringifyStructured s) = treeOfStructured s := by
  unfold structuredFinite at h
  rw [Bool.and_eq_true] at h
  have hlayers : ∀ ls, s.layers = some ls →
      jsonToTree (Json.arr (ls.map stringifyMaterialLayer)) =
        JsTree.arr (ls.map treeOfMaterialLayer) := by
    intro ls hls
    have h1 := h.1
    rw [hls] at h1
    simp only [Option.getD_some, List.all_eq_true] at h1
    rw [jsonToTree_arr, List.map_map]
    exact congrArg JsTree.arr
      (List.map_congr_left fun l hl => tree_stringify_layer l (h1 l hl))
  have hprops : ∀ ps, s.properties = some ps →
      jsonToTree (Json.arr (ps.map stringifyPropertyValue)) =
        JsTree.arr (ps.map treeOfPropertyValue) := by
    intro ps hps
    have h2 := h.2
    rw [hps] at h2
    simp only [Option.getD_some] at h2
    rw [jsonToTree_arr, tree_stringify_pvs ps h2]
  unfold stringifyStructured treeOfStructured
  rw [jsonToTree_obj]
  simp only [List.map_append, List.map_cons, List.map_nil]
  rw [map_optField "layers" s.layers
      (fun ls => Json.arr (ls.map stringifyMaterialLayer))
      (fun ls => JsTree.arr (ls.map treeOfMaterialLayer)) hlayers,
    map_optField "properties" s.properties
      (fun ps => Json.arr (ps.map stringifyPropertyValue))
      (fun ps => JsTree.arr (ps.map treeOfPropertyValue)) hprops]
  simp [jsonToTree]

/-- Round trip of one export record. -/
theorem tree_stringify_element (e : ModelElementL)
    (h : elementFinite e = true) :
    jsonToTree (stringifyElement e) = treeOfElement e := by
  unfold elementFinite at h
  rw [Bool.and_eq_true, Bool.and_eq_true] at h
  obtain ⟨⟨hps, hms⟩, hsm⟩ := h
  rw [List.all_eq_true] at hps hms hsm
  have h1 : e.propertySets.map (jsonToTree ∘ stringifyPropSet) =
      e.propertySets.map treeOfPropSet :=
    List.map_congr_left fun ps hmem => tree_stringify_pset ps (hps ps hmem)
  have h2 : e.materials.map (jsonToTree ∘ stringifyMaterialInfo) =
      e.materials.map treeOfMaterialInfo :=
    List.map_congr_left fun m hmem => tree_stringify_material m (hms m hmem)
  have h3 : e.structuredMaterials.map (jsonToTree ∘ stringifyStructured) =
      e.structuredMaterials.map treeOfStructured :=
    List.map_congr_left fun s hmem => tree_stringify_structured s (hsm s hmem)
  unfold stringifyElement treeOfElement
  rw [jsonToTree_obj]
  simp only [List.map_append, List.map_cons, List.map_nil]
  rw [map_optField "globalId" e.globalId Json.str JsTree.str
    (fun x _ => by simp [jsonToTree])]
  simp only [jsonToTree_arr, List.map_map, h1, h2, h3]
  simp [jsonToTree]

/-- C9 (amended): serializing the export of an element list and parsing
the text back yields the same runtime value trees — records structurally
identical field for field, identifying an absent optional field with an
`undefined` one — provided no property value or layer thickness is `NaN`.
(A `NaN`, which the normalizer produces when coercing a non-numeric
string, serializes as `null` and breaks the round trip.) -/
theorem export_roundtrip_of_finite (es : List ModelElementL)
    (h : es.all elementFinite = true) :
    jsonToTree (stringifyExport es) = treeOfExport es := by
  unfold stringifyExport treeOfExport
  rw [jsonToTree_arr, List.map_map]
  refine congrArg JsTree.arr (List.map_congr_left fun e he => ?_)
  rw [List.all_eq_true] at h
  exact tree_stringify_element e (h e he)

/-- Witness for C9 (amended) on a small finite element. -/
theorem export_roundtrip_of_finite_witness :
    [finiteElement].all elementFinite = true ∧
      jsonToTree (stringifyExport [finiteElement]) =
        treeOfExport [finiteElement] :=
  ⟨by decide, export_roundtrip_of_finite [finiteElement] (by decide)⟩

/-- C9 counterexample: an element list the normalizer produces (its
slices are the extraction functions run on `nanEngine`, whose one
quantity coerces the string `"garbage"` to `NaN`) does not round-trip:
the `NaN` property value serializes as `null`, and the parsed tree
differs from the original record's value tree at that field. -/
theorem export_roundtrip_cex :
    jsonToTree (stringifyExport [nanElement]) ≠ treeOfExport [nanElement] := by
  have hne : nanElement =
      ⟨7, "IFCWALL", "IFCWALL", "W", none,
       [⟨"Unnamed Set", [⟨"Volume", .num none, "number"⟩]⟩], [], []⟩ := by
    decide
  rw [hne]
  simp [stringifyExport, stringifyElement, stringifyPropSet,
    stringifyPropertyValue, stringifyJsVal, optField, jsonToTree_arr,
    jsonToTree_obj, jsonToTree, treeOfExport, treeOfElement, treeOfPropSet,
    treeOfPropertyValue, treeOfJsVal, optFieldT]

end IfcWeb
